import Mathlib

/-!
ParaView: streaming priority queue and render-view coordination

A shallow embedding of `Remoting/Views/vtkAMRStreamingPriorityQueue.cxx` and of the
parts of `Remoting/Views/vtkPVRenderView.h` that the verified properties are about.

Conventions of the embedding:

* `double` values are exact rationals (`ℚ`); only finite values are considered.
* `unsigned int` / `int` values that count blocks, processes or ranks are natural
  numbers; no arithmetic in the embedded code can wrap for values the C++ types hold.
* an object is a record, a method is a function from the record to the new record
  (paired with the returned value when there is one).
-/

namespace ParaView

/-! ## Data model -/

/-- Six bounds of a box, in the order `xmin, xmax, ymin, ymax, zmin, zmax`
(a C++ `double[6]`). -/
structure Bounds6 where
  xmin : ℚ
  xmax : ℚ
  ymin : ℚ
  ymax : ℚ
  zmin : ℚ
  zmax : ℚ
deriving DecidableEq, Repr

/-- The VTK box type. `none` is the default-constructed (uninitialized) box, `some b`
the box after `SetBounds(b)`. -/
structure vtkBoundingBox where
  box : Option Bounds6
deriving DecidableEq, Repr

/-- Method `vtkBoundingBox::SetBounds(const double bounds[6])`. -/
def vtkBoundingBox.SetBounds (_self : vtkBoundingBox) (bounds : Bounds6) : vtkBoundingBox :=
  { box := some bounds }

/-- Modelled from the spec: the item type `vtkStreamingPriorityQueueItem` is declared in
`vtkStreamingPriorityQueue.h`, which is not among the sources. The spec's StreamableBlock
has an identifier, a bounding box, a refinement level and a mutable priority; these are
also the four members that `vtkAMRStreamingPriorityQueue.cxx` reads and writes. -/
structure vtkStreamingPriorityQueueItem where
  Identifier : Nat
  Refinement : ℚ
  Priority : ℚ
  Bounds : vtkBoundingBox
deriving DecidableEq, Repr

/-- The default-constructed item. Its identifier is `0`, as the comment in `Pop` records
("block 0 (set in initialization of vtkStreamingPriorityQueueItem)"). -/
def vtkStreamingPriorityQueueItem.default : vtkStreamingPriorityQueueItem :=
  { Identifier := 0, Refinement := 0, Priority := 0, Bounds := { box := none } }

/-- Modelled from the spec: the container `vtkStreamingPriorityQueue<>` is declared in
`vtkStreamingPriorityQueue.h`, which is not among the sources. The spec describes it as a
max-priority ordering over the blocks. It is embedded as the list of the items it holds, in
insertion order; `top` selects an item of greatest `Priority` and `pop` removes that item. -/
abbrev vtkStreamingPriorityQueue := List vtkStreamingPriorityQueueItem

namespace vtkStreamingPriorityQueue

/-- Selection step shared by `top` and `pop`: for the non-empty container `x :: ys`, the
item of greatest priority (the earliest one among equals) and the other items in their
original order. -/
def extractTop (x : vtkStreamingPriorityQueueItem) :
    List vtkStreamingPriorityQueueItem →
      vtkStreamingPriorityQueueItem × List vtkStreamingPriorityQueueItem
  | [] => (x, [])
  | y :: ys =>
    let r := extractTop y ys
    if x.Priority < r.1.Priority then (r.1, x :: r.2) else (x, y :: ys)

/-- Method `empty()`. -/
def empty (q : vtkStreamingPriorityQueue) : Bool := q.isEmpty

/-- Method `push(item)`. -/
def push (q : vtkStreamingPriorityQueue) (item : vtkStreamingPriorityQueueItem) :
    vtkStreamingPriorityQueue :=
  q ++ [item]

/-- Method `top()`: an item of greatest priority; `none` on an empty container (which
the embedded code never asks for). -/
def top : vtkStreamingPriorityQueue → Option vtkStreamingPriorityQueueItem
  | [] => none
  | x :: ys => some (extractTop x ys).1

/-- Method `pop()`: removes the item that `top()` returns. -/
def pop : vtkStreamingPriorityQueue → vtkStreamingPriorityQueue
  | [] => []
  | x :: ys => (extractTop x ys).2

end vtkStreamingPriorityQueue

/-- The 24 coefficients of the six view planes (a C++ `const double view_planes[24]`). -/
abbrev ViewPlanes := Fin 24 → ℚ

/-- Function `vtkMath::UninitializeBounds`: the bounds it writes, an inverted box. -/
def UninitializeBounds : Bounds6 :=
  { xmin := 1, xmax := -1, ymin := 1, ymax := -1, zmin := 1, zmax := -1 }

/-- The type of the method `vtkStreamingPriorityQueue<>::UpdatePriorities(view_planes,
clamp_bounds)`, whose body is not among the sources: the embedded `Update` takes it as a
parameter. -/
abbrev UpdatePrioritiesFn :=
  ViewPlanes → Bounds6 → vtkStreamingPriorityQueue → vtkStreamingPriorityQueue

/-- The VTK class `vtkOverlappingAMRMetaData`, as far as the queue uses it: the number of
blocks, the map from a flat block identifier to its `(level, index)` pair, and the bounds
of the block at `(level, index)`. -/
structure vtkOverlappingAMRMetaData where
  GetNumberOfBlocks : Nat
  ComputeIndexPair : Nat → Nat × Nat
  GetBounds : Nat → Nat → Bounds6

/-- The VTK class `vtkMultiProcessController`, as far as the queue uses it. -/
structure vtkMultiProcessController where
  GetNumberOfProcesses : Nat
  GetLocalProcessId : Nat
deriving DecidableEq, Repr

/-- The private class `vtkAMRStreamingPriorityQueue::vtkInternals`. -/
structure vtkInternals where
  PriorityQueue : vtkStreamingPriorityQueue
  AMRMetadata : Option vtkOverlappingAMRMetaData

/-- A freshly constructed `vtkInternals`: empty queue, null metadata pointer. -/
def vtkInternals.new : vtkInternals :=
  { PriorityQueue := [], AMRMetadata := none }

/-- The class `vtkAMRStreamingPriorityQueue`. A null `Controller` is `none`. -/
structure vtkAMRStreamingPriorityQueue where
  Internals : vtkInternals
  Controller : Option vtkMultiProcessController

namespace vtkAMRStreamingPriorityQueue

/-- The item that the body of the loop in `Initialize` builds for block `cc`. -/
def InitializeItem (amr : vtkOverlappingAMRMetaData) (cc : Nat) :
    vtkStreamingPriorityQueueItem :=
  let item := vtkStreamingPriorityQueueItem.default
  let item := { item with Identifier := cc }
  let item := { item with Priority := ((amr.GetNumberOfBlocks - cc : Nat) : ℚ) }
  let li := amr.ComputeIndexPair item.Identifier
  let item := { item with Refinement := (li.1 : ℚ) }
  let block_bounds := amr.GetBounds li.1 li.2
  { item with Bounds := item.Bounds.SetBounds block_bounds }

/-- The loop `for (cc = 0; cc < amr->GetNumberOfBlocks(); cc++) push(item)` of
`Initialize`; `n` is the number of iterations still to run, `cc` the loop counter. -/
def InitializeLoop (amr : vtkOverlappingAMRMetaData) :
    Nat → Nat → vtkStreamingPriorityQueue → vtkStreamingPriorityQueue
  | 0, _, q => q
  | n + 1, cc, q => InitializeLoop amr n (cc + 1) (q.push (InitializeItem amr cc))

/-- Method `Initialize(vtkOverlappingAMRMetaData* amr)`. -/
def Initialize (self : vtkAMRStreamingPriorityQueue) (amr : vtkOverlappingAMRMetaData) :
    vtkAMRStreamingPriorityQueue :=
  let internals := vtkInternals.new
  let internals := { internals with AMRMetadata := some amr }
  { self with
    Internals := { internals with
      PriorityQueue := InitializeLoop amr amr.GetNumberOfBlocks 0 internals.PriorityQueue } }

/-- Method `Reinitialize()`. -/
def Reinitialize (self : vtkAMRStreamingPriorityQueue) : vtkAMRStreamingPriorityQueue :=
  match self.Internals.AMRMetadata with
  | some info => self.Initialize info
  | none => self

/-- Method `IsEmpty()`. -/
def IsEmpty (self : vtkAMRStreamingPriorityQueue) : Bool :=
  self.Internals.PriorityQueue.empty

/-- The loop `for (cc = 0; cc < num_procs && !empty(); cc++) { items[cc] = top(); pop(); }`
of `Pop`; `n` is `num_procs - cc`. -/
def PopLoop : Nat → Nat → List vtkStreamingPriorityQueueItem → vtkStreamingPriorityQueue →
    List vtkStreamingPriorityQueueItem × vtkStreamingPriorityQueue
  | 0, _, items, q => (items, q)
  | n + 1, cc, items, q =>
    match q.top with
    | none => (items, q)
    | some t => PopLoop n (cc + 1) (items.set cc t) q.pop

/-- The local `num_procs` of `Pop`:
`this->Controller ? this->Controller->GetNumberOfProcesses() : 1`. -/
def num_procs (self : vtkAMRStreamingPriorityQueue) : Nat :=
  match self.Controller with
  | some c => c.GetNumberOfProcesses
  | none => 1

/-- The local `myid` of `Pop`:
`this->Controller ? this->Controller->GetLocalProcessId() : 0`. -/
def myid (self : vtkAMRStreamingPriorityQueue) : Nat :=
  match self.Controller with
  | some c => c.GetLocalProcessId
  | none => 0

/-- Method `Pop()`. The result is `none` when `assert(myid < num_procs)` fails; otherwise
it is the returned identifier and the object after the call. -/
def Pop (self : vtkAMRStreamingPriorityQueue) : Option (Nat × vtkAMRStreamingPriorityQueue) :=
  if self.IsEmpty then
    some (0, self)
  else
    let num_procs := self.num_procs
    let myid := self.myid
    if myid < num_procs then
      let items := List.replicate num_procs vtkStreamingPriorityQueueItem.default
      let r := PopLoop num_procs 0 items self.Internals.PriorityQueue
      some ((r.1.getD myid vtkStreamingPriorityQueueItem.default).Identifier,
        { self with Internals := { self.Internals with PriorityQueue := r.2 } })
    else
      none

/-- The object that rank `myid` of `num_procs` holds when every rank holds the same
internals. -/
def atRank (internals : vtkInternals) (num_procs myid : Nat) : vtkAMRStreamingPriorityQueue :=
  { Internals := internals,
    Controller := some { GetNumberOfProcesses := num_procs, GetLocalProcessId := myid } }

/-- The items that one run of the loop of `Pop` takes out of the container, in the order
in which it takes them, and the container it leaves: `n` bounds the number of rounds. -/
def PopItems : Nat → vtkStreamingPriorityQueue →
    List vtkStreamingPriorityQueueItem × vtkStreamingPriorityQueue
  | 0, q => ([], q)
  | n + 1, q =>
    match q.top with
    | none => ([], q)
    | some t => (t :: (PopItems n q.pop).1, (PopItems n q.pop).2)

/-- Method `Update(const double view_planes[24], const double clamp_bounds[6])`. -/
def Update (UpdatePriorities : UpdatePrioritiesFn) (self : vtkAMRStreamingPriorityQueue)
    (view_planes : ViewPlanes) (clamp_bounds : Bounds6) : vtkAMRStreamingPriorityQueue :=
  match self.Internals.AMRMetadata with
  | none => self
  | some _ =>
    { self with Internals := { self.Internals with
        PriorityQueue := UpdatePriorities view_planes clamp_bounds self.Internals.PriorityQueue } }

/-- Method `Update(const double view_planes[24])`, the overload without clamp bounds. -/
def UpdateNoClamp (UpdatePriorities : UpdatePrioritiesFn) (self : vtkAMRStreamingPriorityQueue)
    (view_planes : ViewPlanes) : vtkAMRStreamingPriorityQueue :=
  let clamp_bounds := UninitializeBounds
  Update UpdatePriorities self view_planes clamp_bounds

/-- A caller that pops until the queue reports empty:
`while (!queue->IsEmpty()) { ids.push_back(queue->Pop()); }`. The result is the sequence of
returned identifiers and the final object; it is `none` when a `Pop` fails its assertion
or when `fuel` rounds did not empty the queue. -/
def Drain : Nat → vtkAMRStreamingPriorityQueue → Option (List Nat × vtkAMRStreamingPriorityQueue)
  | 0, self => if self.IsEmpty then some ([], self) else none
  | fuel + 1, self =>
    if self.IsEmpty then some ([], self)
    else
      match self.Pop with
      | none => none
      | some r =>
        match Drain fuel r.2 with
        | none => none
        | some rest => some (r.1 :: rest.1, rest.2)

/-- One call on the public surface of the queue. -/
inductive Call where
  | init (amr : vtkOverlappingAMRMetaData)
  | reinit
  | update (view_planes : ViewPlanes) (clamp_bounds : Bounds6)
  | pop

/-- Runs one call; `none` when it is a `Pop` whose assertion fails. -/
def Call.run (UpdatePriorities : UpdatePrioritiesFn) :
    Call → vtkAMRStreamingPriorityQueue → Option vtkAMRStreamingPriorityQueue
  | Call.init amr, self => some (self.Initialize amr)
  | Call.reinit, self => some ( Reinitialize self)
  | Call.update view_planes clamp_bounds, self =>
    some (Update UpdatePriorities self view_planes clamp_bounds)
  | Call.pop, self => (self.Pop).map Prod.snd

/-- Whether the call is a `Pop` or an `Update`. -/
def Call.isPopOrUpdate : Call → Bool
  | Call.pop => true
  | Call.update _ _ => true
  | _ => false

/-- Runs a sequence of calls, first to last. -/
def runCalls (UpdatePriorities : UpdatePrioritiesFn) :
    List Call → vtkAMRStreamingPriorityQueue → Option vtkAMRStreamingPriorityQueue
  | [], self => some self
  | c :: cs, self =>
    match c.run UpdatePriorities self with
    | none => none
    | some self1 => runCalls UpdatePriorities cs self1

/-- The object after `k` calls of `Pop` in a row; `none` when one of them fails its
assertion. -/
def PopTimes : Nat → vtkAMRStreamingPriorityQueue → Option vtkAMRStreamingPriorityQueue
  | 0, self => some self
  | k + 1, self =>
    match self.Pop with
    | none => none
    | some r => PopTimes k r.2

end vtkAMRStreamingPriorityQueue

/-- An item `x` of the container `q` is an `i`-th highest-priority entry (counting from 0)
when at most `i` entries have a strictly greater priority and more than `i` entries have a
priority at least as great. With pairwise different priorities there is exactly one such
entry for every `i < q.length`. -/
def IsIthHighest (q : vtkStreamingPriorityQueue) (i : Nat)
    (x : vtkStreamingPriorityQueueItem) : Prop :=
  x ∈ q ∧ q.countP (fun y => decide (x.Priority < y.Priority)) ≤ i ∧
    i < q.countP (fun y => decide (x.Priority ≤ y.Priority))

instance instDecidableIsIthHighest (q : vtkStreamingPriorityQueue) (i : Nat)
    (x : vtkStreamingPriorityQueueItem) : Decidable (IsIthHighest q i x) := by
  unfold IsIthHighest
  infer_instance

/-- Modelled from the spec: the body of `vtkStreamingPriorityQueue<>::UpdatePriorities` is in
`vtkStreamingPriorityQueue.h`, which is not among the sources. The spec says that it
"recomputes every block's priority as a function of" the block's bounding box under the
frustum, its refinement level and the optional clamp bounds, blocks outside the clamp bounds
being "excluded from contention without being removed from the set". The formula is not
given, so it is the parameter `score`. -/
def vtkStreamingPriorityQueue.UpdatePriorities
    (score : ViewPlanes → Bounds6 → vtkBoundingBox → ℚ → ℚ) : UpdatePrioritiesFn :=
  fun view_planes clamp_bounds q =>
    q.map (fun item =>
      { item with Priority := score view_planes clamp_bounds item.Bounds item.Refinement })

/-! ## The render view: the distributed-rendering decision -/

/-- What one rank reports in an update pass, in megabytes for the size: the size of its
local geometry and whether one of its representations raised a rendering requirement. -/
structure RankReport where
  GeometrySize : ℚ
  RequiresDistributedRendering : Bool
  RequiresLocalOnlyRendering : Bool
deriving DecidableEq, Repr

/-- Modelled from the spec: the collective primitive `AllReduceSum(double) -> double` of the
process topology provider. Rank `rank` contributes its own entry of `local_values` and
receives the sum of the contributions of all ranks. -/
def AllReduceSum (local_values : List ℚ) (_rank : Nat) : ℚ :=
  local_values.sum

/-- Modelled from the spec: the collective primitive `AllReduceLogicalOr(bool) -> bool` of
the process topology provider. -/
def AllReduceLogicalOr (local_values : List Bool) (_rank : Nat) : Bool :=
  local_values.any (fun b => b)

/-- The members of `vtkPVRenderView` that the decision reads and writes (declared in
`vtkPVRenderView.h`); the threshold is in megabytes. -/
structure vtkPVRenderView where
  RemoteRenderingThreshold : ℚ
  UseDistributedRenderingForRender : Bool
deriving DecidableEq, Repr

namespace vtkPVRenderView

/-- Modelled from the spec: the body of `ShouldUseDistributedRendering(geometry_size,
using_lod)` is in `vtkPVRenderView.cxx`, which is not among the sources. The spec says to
"combine aggregated byte-size vs. threshold (size > threshold ⇒ leans distributed/LOD) with
any hard `Requires*` flags (flags always win over size-based heuristics)", both flags raised
being "resolved conservatively in favor of distributed rendering". -/
def ShouldUseDistributedRendering (self : vtkPVRenderView) (requires_distributed : Bool)
    (requires_local_only : Bool) (geometry_size : ℚ) (_using_lod : Bool) : Bool :=
  if requires_distributed then true
  else if requires_local_only then false
  else decide (self.RemoteRenderingThreshold < geometry_size)

/-- Modelled from the spec: the decision step of `Update()` on rank `rank`, whose body is in
`vtkPVRenderView.cxx`, which is not among the sources. The spec says that the engine
"performs the reduction itself rather than trusting any single process's local size":
the sizes and the flags of all ranks are reduced, then the decision is taken and stored. -/
def Update (self : vtkPVRenderView) (reports : List RankReport) (rank : Nat) :
    vtkPVRenderView :=
  let geometry_size := AllReduceSum (reports.map (fun r => r.GeometrySize)) rank
  let requires_distributed :=
    AllReduceLogicalOr (reports.map (fun r => r.RequiresDistributedRendering)) rank
  let requires_local_only :=
    AllReduceLogicalOr (reports.map (fun r => r.RequiresLocalOnlyRendering)) rank
  let decision := self.ShouldUseDistributedRendering requires_distributed
    requires_local_only geometry_size false
  { self with UseDistributedRenderingForRender := decision }

end vtkPVRenderView

/-! ## The render view: requirements, configuration flags and clamped settings -/

namespace vtkPVRenderView

/-- Modelled from the spec: the body of the static method
`SetRequiresDistributedRendering(info, repr, value, for_lod)` is in `vtkPVRenderView.cxx`,
which is not among the sources. Its declaration in `vtkPVRenderView.h` documents that
"`value == true` indicates that the representation requires distributed rendering,
`value == false` indicates the representation can only render property on the client or
root node"; the spec calls the two requirements `RequiresDistributedRendering` and
`RequiresLocalOnlyRendering`. The call raises the matching requirement in the rank's
report. -/
def SetRequiresDistributedRendering (report : RankReport) (value : Bool) : RankReport :=
  if value then { report with RequiresDistributedRendering := true }
  else { report with RequiresLocalOnlyRendering := true }

/-- Enumerator `USE_BOUNDS_FOR_REDISTRIBUTION = 0x01`. -/
def USE_BOUNDS_FOR_REDISTRIBUTION : Nat := 0x01

/-- Enumerator `DATA_IS_REDISTRIBUTABLE = 0x02`. -/
def DATA_IS_REDISTRIBUTABLE : Nat := 0x02

/-- Enumerator `USE_DATA_FOR_LOAD_BALANCING = 0x40`. -/
def USE_DATA_FOR_LOAD_BALANCING : Nat := 0x40

/-- The configuration obtained by combining with bit-wise OR the flags that are selected:
`useBounds` selects `USE_BOUNDS_FOR_REDISTRIBUTION`, `redistributable` selects
`DATA_IS_REDISTRIBUTABLE`, `loadBalancing` selects `USE_DATA_FOR_LOAD_BALANCING`. -/
def combineFlags (useBounds redistributable loadBalancing : Bool) : Nat :=
  (if useBounds then USE_BOUNDS_FOR_REDISTRIBUTION else 0) |||
    (if redistributable then DATA_IS_REDISTRIBUTABLE else 0) |||
    (if loadBalancing then USE_DATA_FOR_LOAD_BALANCING else 0)

/-- Whether the configuration `config` contains the flag `flag`: `(config & flag) != 0`. -/
def hasFlag (config flag : Nat) : Bool :=
  decide (config &&& flag ≠ 0)

end vtkPVRenderView

/-- Modelled from the spec: the macro `vtkSetClampMacro(name, type, min, max)` is defined in
VTK's `vtkSetGet.h`, which is not among the sources. The setter it generates stores the
argument clamped to the range, `_arg < min ? min : (_arg > max ? max : _arg)`; this is the
value of the member after the call. -/
def vtkSetClampMacro {α : Type} [LT α] [DecidableRel (fun a b : α => a < b)]
    (min_value max_value _arg : α) : α :=
  if _arg < min_value then min_value
  else if max_value < _arg then max_value
  else _arg

/-- The members of `vtkPVRenderView` that `vtkPVRenderView.h` declares with
`vtkSetClampMacro`, as far as they are verified here. -/
structure vtkPVRenderViewSettings where
  StillRenderImageReductionFactor : Int
  InteractiveRenderImageReductionFactor : Int
  LODResolution : ℚ
deriving DecidableEq, Repr

namespace vtkPVRenderViewSettings

/-- Setter from `vtkSetClampMacro(StillRenderImageReductionFactor, int, 1, 20)`. -/
def SetStillRenderImageReductionFactor (self : vtkPVRenderViewSettings) (_arg : Int) :
    vtkPVRenderViewSettings :=
  { self with StillRenderImageReductionFactor := vtkSetClampMacro 1 20 _arg }

/-- Getter from `vtkGetMacro(StillRenderImageReductionFactor, int)`. -/
def GetStillRenderImageReductionFactor (self : vtkPVRenderViewSettings) : Int :=
  self.StillRenderImageReductionFactor

/-- Setter from `vtkSetClampMacro(InteractiveRenderImageReductionFactor, int, 1, 20)`. -/
def SetInteractiveRenderImageReductionFactor (self : vtkPVRenderViewSettings) (_arg : Int) :
    vtkPVRenderViewSettings :=
  { self with InteractiveRenderImageReductionFactor := vtkSetClampMacro 1 20 _arg }

/-- Getter from `vtkGetMacro(InteractiveRenderImageReductionFactor, int)`. -/
def GetInteractiveRenderImageReductionFactor (self : vtkPVRenderViewSettings) : Int :=
  self.InteractiveRenderImageReductionFactor

/-- Setter from `vtkSetClampMacro(LODResolution, double, 0.0, 1.0)`. -/
def SetLODResolution (self : vtkPVRenderViewSettings) (_arg : ℚ) : vtkPVRenderViewSettings :=
  { self with LODResolution := vtkSetClampMacro 0 1 _arg }

/-- Getter from `vtkGetMacro(LODResolution, double)`. -/
def GetLODResolution (self : vtkPVRenderViewSettings) : ℚ :=
  self.LODResolution

end vtkPVRenderViewSettings

/-! ## The image volume representation -/

/-- The request keys that `ProcessViewRequest` tells apart; `OTHER` is any other key. -/
inductive RequestType where
  | REQUEST_UPDATE
  | REQUEST_UPDATE_LOD
  | REQUEST_RENDER
  | OTHER
deriving DecidableEq, Repr

/-- The data that `vtkImageVolumeRepresentation` hands to the view as a piece. -/
inductive PieceData where
  | Cache
  | Outline
deriving DecidableEq, Repr

/-- One call that `vtkImageVolumeRepresentation::ProcessViewRequest` makes on the view or
on the request's information objects, with the arguments it passes. -/
inductive ViewCall where
  | SetPiece (data : PieceData) (trueSize : Nat) (port : Nat)
  | SetDeliverToClientAndRenderingProcesses (deliver_to_client : Bool)
      (gather_before_delivery : Bool) (port : Nat)
  | SetNeedOrderedCompositing (value : Int)
  | SetGeometryBounds (bounds : Bounds6)
  | SetRequiresDistributedRendering (value : Bool) (for_lod : Bool)
  | SetOrderedCompositingConfiguration (config : Nat)
  | GetPieceProducer (port : Nat)
deriving DecidableEq, Repr

/-- Inline method `vtkPVRenderView::SetRequiresDistributedRenderingLOD(info, repr, value)`
of `vtkPVRenderView.h`: it calls `SetRequiresDistributedRendering(info, repr, value, true)`. -/
def vtkPVRenderView.SetRequiresDistributedRenderingLOD (value : Bool) : ViewCall :=
  ViewCall.SetRequiresDistributedRendering value true

/-- The members of `vtkImageVolumeRepresentation` that `ProcessViewRequest` reads. -/
structure vtkImageVolumeRepresentation where
  DataSize : Nat
  DataBounds : Bounds6
deriving DecidableEq, Repr

/-- Method `vtkImageVolumeRepresentation::ProcessViewRequest(request_type, inInfo, outInfo)`.
`superclass_result` is what `Superclass::ProcessViewRequest` returns. The result is the
returned `int` and the calls made, in order; the mapper set-up of the `REQUEST_RENDER`
branch is left out apart from its two `GetPieceProducer` calls. -/
def vtkImageVolumeRepresentation.ProcessViewRequest (self : vtkImageVolumeRepresentation)
    (superclass_result : Int) (request_type : RequestType) : Int × List ViewCall :=
  if superclass_result = 0 then (0, [])
  else
    match request_type with
    | RequestType.REQUEST_UPDATE =>
      (1, [ ViewCall.SetPiece PieceData.Cache self.DataSize 0,
            ViewCall.SetDeliverToClientAndRenderingProcesses false false 0,
            ViewCall.SetPiece PieceData.Outline 0 1,
            ViewCall.SetNeedOrderedCompositing 1,
            ViewCall.SetGeometryBounds self.DataBounds,
            ViewCall.SetRequiresDistributedRendering true false,
            ViewCall.SetOrderedCompositingConfiguration
              vtkPVRenderView.USE_BOUNDS_FOR_REDISTRIBUTION ])
    | RequestType.REQUEST_UPDATE_LOD =>
      (1, [ vtkPVRenderView.SetRequiresDistributedRenderingLOD true ])
    | RequestType.REQUEST_RENDER =>
      (1, [ ViewCall.GetPieceProducer 0, ViewCall.GetPieceProducer 1 ])
    | RequestType.OTHER => (1, [])

/-! ## The axis-aligned cutter: type of the output -/

/-- A leaf of a composite input, as the leaves-only tree iterator visits it: a
`vtkHyperTreeGrid` or a data object of another class. -/
inductive LeafObject where
  | HyperTreeGrid
  | Other
deriving DecidableEq, Repr

/-- The input data object of the cutter, by the classes that `RequestDataObject` tests for:
a `vtkOverlappingAMR`, a `vtkHyperTreeGrid`, a composite `vtkDataObjectTree` with the leaves
its iterator visits, or anything else (also no data object at all). -/
inductive InputObject where
  | OverlappingAMR
  | HyperTreeGrid
  | DataObjectTree (leaves : List LeafObject)
  | Other
deriving DecidableEq, Repr

/-- The class of an output data object, as far as `RequestDataObject` tests for it. -/
inductive OutputClass where
  | OverlappingAMR
  | PartitionedDataSetCollection
  | Other
deriving DecidableEq, Repr

/-- An output data object: its class and its identity (the address of the object). -/
structure OutputObject where
  cls : OutputClass
  address : Nat
deriving DecidableEq, Repr

namespace vtkAxisAlignedCutter

/-- The loop of `RequestDataObject` over the leaves of a composite input: `true` when it runs
to its end, `false` when it meets a leaf that is not a `vtkHyperTreeGrid` and returns `0`. -/
def leavesAreHTG : List LeafObject → Bool
  | [] => true
  | LeafObject.HyperTreeGrid :: rest => leavesAreHTG rest
  | LeafObject.Other :: _ => false

/-- Method `vtkAxisAlignedCutter::RequestDataObject`. `input` is the data object of the input
information, `output` the one of the output information (`none` when there is none) and
`fresh` the address of an object that `vtkNew` would create. The result is the returned
`int` and the data object of the output information after the call. -/
def RequestDataObject (input : InputObject) (output : Option OutputObject) (fresh : Nat) :
    Int × Option OutputObject :=
  match input with
  | InputObject.OverlappingAMR =>
    let outputAlreadyCreated := match output with
      | some o => decide (o.cls = OutputClass.OverlappingAMR)
      | none => false
    if !outputAlreadyCreated then
      (1, some { cls := OutputClass.OverlappingAMR, address := fresh })
    else (1, output)
  | _ =>
    let inputComposite := match input with
      | InputObject.DataObjectTree _ => true
      | _ => false
    let leavesOk := match input with
      | InputObject.DataObjectTree leaves => leavesAreHTG leaves
      | _ => true
    if !leavesOk then (0, output)
    else
      let inputHTG := decide (input = InputObject.HyperTreeGrid)
      if inputHTG || inputComposite then
        let outputAlreadyCreated := match output with
          | some o => decide (o.cls = OutputClass.PartitionedDataSetCollection)
          | none => false
        if !outputAlreadyCreated then
          (1, some { cls := OutputClass.PartitionedDataSetCollection, address := fresh })
        else (1, output)
      else (0, output)

end vtkAxisAlignedCutter

/-! ## The axis-aligned cutter: slices of a hyper tree grid -/

/-- The VTK class `vtkHyperTreeGrid`, as far as `ProcessHTG` reads it. -/
structure vtkHyperTreeGrid where
  GetNumberOfCells : Nat
deriving DecidableEq, Repr

/-- The VTK class `vtkPartitionedDataSet`: its partitions, a null partition being `none`. -/
structure vtkPartitionedDataSet where
  Partitions : List (Option vtkHyperTreeGrid)
deriving DecidableEq, Repr

/-- One slot of a `vtkPartitionedDataSetCollection`: the partitioned dataset stored at the
index and the `NAME` entry of the meta-data of the index (`none` when it is not set). -/
structure CollectionSlot where
  DataSet : vtkPartitionedDataSet
  Name : Option String
deriving DecidableEq, Repr

/-- The slot that the collection creates when it grows: an empty dataset without name. -/
def CollectionSlot.empty : CollectionSlot :=
  { DataSet := { Partitions := [] }, Name := none }

/-- The VTK class `vtkPartitionedDataSetCollection`: its slots, by index. -/
abbrev vtkPartitionedDataSetCollection := List CollectionSlot

namespace vtkPartitionedDataSetCollection

/-- Changes the slot at index `idx` by `f`; a collection with fewer than `idx + 1` slots
first grows to `idx + 1` slots, the new slots being empty. -/
def updateSlot (f : CollectionSlot → CollectionSlot) :
    Nat → vtkPartitionedDataSetCollection → vtkPartitionedDataSetCollection
  | 0, [] => [f CollectionSlot.empty]
  | 0, e :: es => f e :: es
  | idx + 1, [] => CollectionSlot.empty :: updateSlot f idx []
  | idx + 1, e :: es => e :: updateSlot f idx es

/-- Method `SetPartitionedDataSet(idx, dataset)`. -/
def SetPartitionedDataSet (self : vtkPartitionedDataSetCollection) (idx : Nat)
    (dataset : vtkPartitionedDataSet) : vtkPartitionedDataSetCollection :=
  updateSlot (fun e => { e with DataSet := dataset }) idx self

/-- The statement `GetMetaData(idx)->Set(vtkCompositeDataSet::NAME(), name)`. -/
def SetName (self : vtkPartitionedDataSetCollection) (idx : Nat) (name : String) :
    vtkPartitionedDataSetCollection :=
  updateSlot (fun e => { e with Name := some name }) idx self

end vtkPartitionedDataSetCollection

/-- Method `vtkMultiProcessController::AllReduce(&value, &result, 1, LOGICAL_OR_OP)` on one
`int`: `contributions` holds the value that each rank passes. The result is `none` when the
communication fails (the method returns `0`), else the logical OR of the contributions. -/
def vtkMultiProcessController.AllReduce (communicationOk : Bool) (contributions : List Int) :
    Option Int :=
  if communicationOk then
    some (if contributions.any (fun v => decide (v ≠ 0)) then 1 else 0)
  else none

namespace vtkAxisAlignedCutter

/-- The value of `intersects` that rank `rank` computes for `offset` in `ProcessHTG`, where
`cut rank offset` is the output of `CutHTGWithAAPlane` on that rank. -/
def intersects (cut : Nat → ℚ → vtkHyperTreeGrid) (rank : Nat) (offset : ℚ) : Int :=
  if (cut rank offset).GetNumberOfCells ≠ 0 then 1 else 0

/-- The loop of `ProcessHTG` over the offset values still to process; `nbInserted` is the
loop variable of that name. `cut rank offset` is the hyper tree grid that
`CutHTGWithAAPlane(inputHTG, outputHTG, plane, offset)` leaves in `outputHTG` on rank
`rank`. -/
def ProcessHTGLoop (cut : Nat → ℚ → vtkHyperTreeGrid) (communicationOk : Bool)
    (Controller : vtkMultiProcessController) :
    List ℚ → Nat → vtkPartitionedDataSetCollection → Bool × vtkPartitionedDataSetCollection
  | [], _, outputSlices => (true, outputSlices)
  | offset :: rest, nbInserted, outputSlices =>
    let outputHTG := cut Controller.GetLocalProcessId offset
    let contributions :=
      (List.range Controller.GetNumberOfProcesses).map (fun r => intersects cut r offset)
    match vtkMultiProcessController.AllReduce communicationOk contributions with
    | none => (false, outputSlices)
    | some atLeastOneIntersects =>
      if atLeastOneIntersects = 0 then
        ProcessHTGLoop cut communicationOk Controller rest nbInserted outputSlices
      else
        let pds : vtkPartitionedDataSet := { Partitions := [some outputHTG] }
        let outputSlices := outputSlices.SetPartitionedDataSet nbInserted pds
        let sliceName := "Slice" ++ toString nbInserted
        let outputSlices := outputSlices.SetName nbInserted sliceName
        ProcessHTGLoop cut communicationOk Controller rest (nbInserted + 1) outputSlices

/-- Method `vtkAxisAlignedCutter::ProcessHTG(inputHTG, plane, outputSlices)` on the rank of
`Controller`, with the offset values `OffsetValues`. The result is the returned `bool` and
the collection `outputSlices` after the call. -/
def ProcessHTG (cut : Nat → ℚ → vtkHyperTreeGrid) (communicationOk : Bool)
    (Controller : vtkMultiProcessController) (OffsetValues : List ℚ)
    (outputSlices : vtkPartitionedDataSetCollection) :
    Bool × vtkPartitionedDataSetCollection :=
  ProcessHTGLoop cut communicationOk Controller OffsetValues 0 outputSlices

/-- The offset values whose cut is non-empty on at least one of the `numRanks` ranks, in
the order of the offset values. -/
def intersectingOffsets (cut : Nat → ℚ → vtkHyperTreeGrid) (numRanks : Nat)
    (OffsetValues : List ℚ) : List ℚ :=
  OffsetValues.filter (fun offset =>
    (List.range numRanks).any (fun r => decide ((cut r offset).GetNumberOfCells ≠ 0)))

/-- The slots that the claimed bookkeeping gives rank `rank` for the intersecting offsets
`offsets`, the first of them with index `j`: one dataset per offset, holding the rank's own
cut, named `Slice` followed by its index. -/
def expectedSlices (cut : Nat → ℚ → vtkHyperTreeGrid) (rank : Nat) :
    Nat → List ℚ → vtkPartitionedDataSetCollection
  | _, [] => []
  | j, offset :: rest =>
    { DataSet := { Partitions := [some (cut rank offset)] },
      Name := some ("Slice" ++ toString j) } :: expectedSlices cut rank (j + 1) rest

end vtkAxisAlignedCutter

/-! ## The axis-aligned cutter: the axis of the plane normal -/

/-- The enumerators `X_NORMAL`, `Y_NORMAL`, `Z_NORMAL` of the VTK class `vtkAMRSliceFilter`,
which `CutAMRWithAAPlane` stores in its `planeNormalAxis`. -/
inductive vtkAMRSliceFilter where
  | X_NORMAL
  | Y_NORMAL
  | Z_NORMAL
deriving DecidableEq, Repr

/-- The index of the axis that an enumerator of `vtkAMRSliceFilter` names: `0` for x, `1`
for y, `2` for z. -/
def vtkAMRSliceFilter.axisIndex : vtkAMRSliceFilter → Int
  | vtkAMRSliceFilter.X_NORMAL => 0
  | vtkAMRSliceFilter.Y_NORMAL => 1
  | vtkAMRSliceFilter.Z_NORMAL => 2

namespace vtkAxisAlignedCutter

/-- The value of the local `planeNormalAxis` of `CutHTGWithAAPlane` for the plane normal
`normal`; the method passes it to `HTGCutter->SetPlaneNormalAxis`. -/
def CutHTGWithAAPlane_planeNormalAxis (normal : Fin 3 → ℚ) : Int :=
  let planeNormalAxis : Int := 0
  let planeNormalAxis := if normal 1 > normal 0 then 1 else planeNormalAxis
  let planeNormalAxis := if normal 2 > normal 0 then 2 else planeNormalAxis
  planeNormalAxis

/-- The value of the local `planeNormalAxis` of `CutAMRWithAAPlane` for the plane normal
`normal`; the method passes it to `AMRCutter->SetNormal`. -/
def CutAMRWithAAPlane_planeNormalAxis (normal : Fin 3 → ℚ) : vtkAMRSliceFilter :=
  let planeNormalAxis := vtkAMRSliceFilter.X_NORMAL
  let planeNormalAxis :=
    if normal 1 > normal 0 then vtkAMRSliceFilter.Y_NORMAL else planeNormalAxis
  let planeNormalAxis :=
    if normal 2 > normal 0 then vtkAMRSliceFilter.Z_NORMAL else planeNormalAxis
  planeNormalAxis

/-- The normal `normal` is axis-aligned along the axis `axis`: its component of index
`axis` is the only one that is not zero. -/
def IsAxisAligned (normal : Fin 3 → ℚ) (axis : Fin 3) : Prop :=
  normal axis ≠ 0 ∧ ∀ j : Fin 3, j ≠ axis → normal j = 0

end vtkAxisAlignedCutter

/-! ## The sequence animation player -/

/-- The conversion `static_cast<int>(x)` of a `double`: truncation toward zero (for values
in the range of `int`). -/
def static_cast_int (x : ℚ) : Int :=
  if 0 ≤ x then ⌊x⌋ else ⌈x⌉

/-- The members of `vtkSequenceAnimationPlayer` that the two conversions read. -/
structure vtkSequenceAnimationPlayer where
  NumberOfFrames : Int
  FrameNo : Int
deriving DecidableEq, Repr

namespace vtkSequenceAnimationPlayer

/-- The constructor: `NumberOfFrames = 1`, `FrameNo = 0`. -/
def new : vtkSequenceAnimationPlayer :=
  { NumberOfFrames := 1, FrameNo := 0 }

/-- Method `GetTimestep(double start, double end, double current)`. -/
def GetTimestep (self : vtkSequenceAnimationPlayer) (start endtime current : ℚ) : Int :=
  if start = endtime then
    static_cast_int start
  else
    static_cast_int
      ((current - start) * ((self.NumberOfFrames - 1 : Int) : ℚ) / (endtime - start) + 1 / 2)

/-- Method `GetTimeFromTimestep(double start, double end, int timestep)`. -/
def GetTimeFromTimestep (self : vtkSequenceAnimationPlayer) (start endtime : ℚ)
    (timestep : Int) : ℚ :=
  let delta := (endtime - start) / ((max (self.NumberOfFrames - 1) 1 : Int) : ℚ)
  start + (timestep : ℚ) * delta

end vtkSequenceAnimationPlayer

/-! ## Example data -/

/-- Example metadata: three blocks, block `0` on level `0` and blocks `1, 2` on level `1`. -/
def exampleAMR : vtkOverlappingAMRMetaData :=
  { GetNumberOfBlocks := 3,
    ComputeIndexPair := fun id => if id = 0 then (0, 0) else (1, id - 1),
    GetBounds := fun level index =>
      { xmin := (index : ℚ), xmax := (index : ℚ) + 1, ymin := 0, ymax := 1,
        zmin := 0, zmax := (level : ℚ) + 1 } }

/-- Example view planes: all 24 coefficients are `0`. -/
def exampleViewPlanes : ViewPlanes := fun _ => 0

/-- Example reports of three ranks: sizes of 10, 200 and 5 megabytes, no requirement. -/
def exampleReports : List RankReport :=
  [ { GeometrySize := 10, RequiresDistributedRendering := false,
      RequiresLocalOnlyRendering := false },
    { GeometrySize := 200, RequiresDistributedRendering := false,
      RequiresLocalOnlyRendering := false },
    { GeometrySize := 5, RequiresDistributedRendering := false,
      RequiresLocalOnlyRendering := false } ]

/-- Example reports of three ranks whose sizes sum up to 35 megabytes; the representation
on rank `1` called `SetRequiresDistributedRendering` with value `true`. -/
def exampleFlagReports : List RankReport :=
  [ { GeometrySize := 10, RequiresDistributedRendering := false,
      RequiresLocalOnlyRendering := false },
    vtkPVRenderView.SetRequiresDistributedRendering
      { GeometrySize := 20, RequiresDistributedRendering := false,
        RequiresLocalOnlyRendering := false } true,
    { GeometrySize := 5, RequiresDistributedRendering := false,
      RequiresLocalOnlyRendering := false } ]

/-- Example image volume representation. -/
def exampleVolume : vtkImageVolumeRepresentation :=
  { DataSize := 1024, DataBounds := UninitializeBounds }

/-- Example plane normal `(0, -1, 0)`: along the y axis, pointing backwards. -/
def exampleNegativeYNormal : Fin 3 → ℚ :=
  fun j => if j = 1 then -1 else 0

/-- Example plane normal `(0, 0, 1)`. -/
def exampleZNormal : Fin 3 → ℚ :=
  fun j => if j = 2 then 1 else 0

/-- Example player with five frames. -/
def examplePlayer : vtkSequenceAnimationPlayer :=
  { NumberOfFrames := 5, FrameNo := 0 }

/-- Example view with a remote-rendering threshold of 50 megabytes. -/
def exampleView : vtkPVRenderView :=
  { RemoteRenderingThreshold := 50, UseDistributedRenderingForRender := false }

/-- An example item with the given identifier and priority. -/
def exampleItem (id : Nat) (priority : ℚ) : vtkStreamingPriorityQueueItem :=
  { Identifier := id, Refinement := 0, Priority := priority, Bounds := { box := none } }

/-- Example internals: three blocks `4, 7, 2` with priorities `1, 5, 3`, no metadata. -/
def exampleInternals : vtkInternals :=
  { PriorityQueue := [exampleItem 4 1, exampleItem 7 5, exampleItem 2 3],
    AMRMetadata := none }

/-- Example object: the example internals with a null controller. -/
def exampleObject : vtkAMRStreamingPriorityQueue :=
  { Internals := exampleInternals, Controller := none }

/-- Example internals whose queue is empty. -/
def exampleEmptyInternals : vtkInternals :=
  { PriorityQueue := [], AMRMetadata := none }

/-! ## The container: selection of the greatest item -/

namespace vtkStreamingPriorityQueue

theorem extractTop_perm (x : vtkStreamingPriorityQueueItem) :
    ∀ ys : List vtkStreamingPriorityQueueItem,
      List.Perm ((extractTop x ys).1 :: (extractTop x ys).2) (x :: ys)
  | [] => by simp [extractTop]
  | y :: ys => by
    have ih := extractTop_perm y ys
    simp only [extractTop]
    split
    · exact (List.Perm.swap _ _ _).trans (List.Perm.cons x ih)
    · exact List.Perm.refl _

theorem extractTop_length (x : vtkStreamingPriorityQueueItem)
    (ys : List vtkStreamingPriorityQueueItem) : (extractTop x ys).2.length = ys.length := by
  have h := (extractTop_perm x ys).length_eq
  simpa using h

theorem extractTop_sublist (x : vtkStreamingPriorityQueueItem) :
    ∀ ys : List vtkStreamingPriorityQueueItem, List.Sublist (extractTop x ys).2 (x :: ys)
  | [] => by simp [extractTop]
  | y :: ys => by
    have ih := extractTop_sublist y ys
    simp only [extractTop]
    split
    · exact List.Sublist.cons₂ x ih
    · exact List.Sublist.cons x (List.Sublist.refl _)

theorem extractTop_ge (x : vtkStreamingPriorityQueueItem) :
    ∀ ys : List vtkStreamingPriorityQueueItem,
      (extractTop x ys).1.Priority ≥ x.Priority ∧
        ∀ z ∈ (extractTop x ys).2, z.Priority ≤ (extractTop x ys).1.Priority
  | [] => by simp [extractTop]
  | y :: ys => by
    obtain ⟨h1, h2⟩ := extractTop_ge y ys
    have hp := extractTop_perm y ys
    simp only [extractTop]
    split
    · rename_i hlt
      refine ⟨le_of_lt hlt, ?_⟩
      intro z hz
      rcases List.mem_cons.1 hz with rfl | hz
      · exact le_of_lt hlt
      · exact h2 z hz
    · rename_i hlt
      have hle : (extractTop y ys).1.Priority ≤ x.Priority := not_lt.1 hlt
      refine ⟨le_refl _, ?_⟩
      intro z hz
      have hz2 : z ∈ (extractTop y ys).1 :: (extractTop y ys).2 := hp.mem_iff.2 hz
      rcases List.mem_cons.1 hz2 with rfl | hz3
      · exact hle
      · exact le_trans (h2 z hz3) hle

/-- When the first item already has the greatest priority, it is the one selected. -/
theorem extractTop_of_head_ge (x : vtkStreamingPriorityQueueItem) :
    ∀ ys : List vtkStreamingPriorityQueueItem,
      (∀ z ∈ ys, z.Priority ≤ x.Priority) → extractTop x ys = (x, ys)
  | [], _ => rfl
  | y :: ys, h => by
    have hp := extractTop_perm y ys
    have hm : (extractTop y ys).1 ∈ y :: ys :=
      hp.mem_iff.1 (List.mem_cons_self _ _)
    have hle := h _ hm
    simp only [extractTop]
    rw [if_neg (not_lt.2 hle)]

theorem top_eq_none_iff (q : vtkStreamingPriorityQueue) : q.top = none ↔ q = [] := by
  cases q <;> simp [top]

theorem top_pop_perm (q : vtkStreamingPriorityQueue) (t : vtkStreamingPriorityQueueItem)
    (h : q.top = some t) : List.Perm (t :: q.pop) q := by
  cases q with
  | nil => simp [top] at h
  | cons x ys =>
    simp only [top, Option.some.injEq] at h
    subst h
    exact extractTop_perm x ys

theorem pop_sublist (q : vtkStreamingPriorityQueue) : List.Sublist q.pop q := by
  cases q with
  | nil => simp [pop]
  | cons x ys => exact extractTop_sublist x ys

theorem top_ge_pop (q : vtkStreamingPriorityQueue) (t : vtkStreamingPriorityQueueItem)
    (h : q.top = some t) : ∀ z ∈ q.pop, z.Priority ≤ t.Priority := by
  cases q with
  | nil => simp [top] at h
  | cons x ys =>
    simp only [top, Option.some.injEq] at h
    subst h
    exact (extractTop_ge x ys).2

end vtkStreamingPriorityQueue

/-! ## The loop of `Pop` -/

namespace vtkAMRStreamingPriorityQueue

open vtkStreamingPriorityQueue

theorem PopItems_perm : ∀ (n : Nat) (q : vtkStreamingPriorityQueue),
    List.Perm ((PopItems n q).1 ++ (PopItems n q).2) q
  | 0, q => by simp [PopItems]
  | n + 1, q => by
    cases h : q.top with
    | none => simp [PopItems, h]
    | some t =>
      simp only [PopItems, h, List.cons_append]
      exact (List.Perm.cons t (PopItems_perm n q.pop)).trans (top_pop_perm q t h)

theorem PopItems_length : ∀ (n : Nat) (q : vtkStreamingPriorityQueue),
    (PopItems n q).1.length = min n q.length
  | 0, q => by simp [PopItems]
  | n + 1, q => by
    cases h : q.top with
    | none =>
      have hq := (top_eq_none_iff q).1 h
      subst hq
      simp [PopItems, top]
    | some t =>
      have hl := (top_pop_perm q t h).length_eq
      simp only [List.length_cons] at hl
      simp only [PopItems, h, List.length_cons, PopItems_length n q.pop]
      omega

theorem PopItems_rest_length (n : Nat) (q : vtkStreamingPriorityQueue) :
    (PopItems n q).2.length = q.length - min n q.length := by
  have h := (PopItems_perm n q).length_eq
  rw [List.length_append, PopItems_length] at h
  omega

theorem PopItems_sublist : ∀ (n : Nat) (q : vtkStreamingPriorityQueue),
    List.Sublist (PopItems n q).2 q
  | 0, q => by simp [PopItems]
  | n + 1, q => by
    cases h : q.top with
    | none => simp [PopItems, h]
    | some t =>
      simp only [PopItems, h]
      exact (PopItems_sublist n q.pop).trans (pop_sublist q)

/-- The removed items come out in non-increasing priority, and none of the items left
behind has a priority above any removed item. -/
theorem PopItems_sorted : ∀ (n : Nat) (q : vtkStreamingPriorityQueue),
    List.Pairwise (fun a b => b.Priority ≤ a.Priority) (PopItems n q).1 ∧
      ∀ a ∈ (PopItems n q).1, ∀ b ∈ (PopItems n q).2, b.Priority ≤ a.Priority
  | 0, q => by simp [PopItems]
  | n + 1, q => by
    cases h : q.top with
    | none => simp [PopItems, h]
    | some t =>
      obtain ⟨ih1, ih2⟩ := PopItems_sorted n q.pop
      have hp := PopItems_perm n q.pop
      have hge := top_ge_pop q t h
      simp only [PopItems, h]
      refine ⟨List.pairwise_cons.2 ⟨?_, ih1⟩, ?_⟩
      · intro z hz
        exact hge z (hp.mem_iff.1 (List.mem_append_left _ hz))
      · intro a ha b hb
        rcases List.mem_cons.1 ha with rfl | ha
        · exact hge b (hp.mem_iff.1 (List.mem_append_right _ hb))
        · exact ih2 a ha b hb

theorem PopLoop_snd : ∀ (n cc : Nat) (items : List vtkStreamingPriorityQueueItem)
    (q : vtkStreamingPriorityQueue), (PopLoop n cc items q).2 = (PopItems n q).2
  | 0, _, _, _ => rfl
  | n + 1, cc, items, q => by
    cases h : q.top with
    | none => simp [PopLoop, PopItems, h]
    | some t =>
      simp only [PopLoop, PopItems, h]
      exact PopLoop_snd n (cc + 1) (items.set cc t) q.pop

theorem PopLoop_getElem? : ∀ (n cc : Nat) (items : List vtkStreamingPriorityQueueItem)
    (q : vtkStreamingPriorityQueue) (i : Nat), cc + n ≤ items.length →
    (PopLoop n cc items q).1[i]? =
      if cc ≤ i ∧ i < cc + (PopItems n q).1.length then (PopItems n q).1[i - cc]?
      else items[i]?
  | 0, cc, items, q, i, _ => by
    simp only [PopLoop, PopItems, List.length_nil, Nat.add_zero]
    rw [if_neg (by omega)]
  | n + 1, cc, items, q, i, hlen => by
    cases h : q.top with
    | none =>
      simp only [PopLoop, PopItems, h, List.length_nil, Nat.add_zero]
      rw [if_neg (by omega)]
    | some t =>
      simp only [PopLoop, PopItems, h, List.length_cons]
      rw [PopLoop_getElem? n (cc + 1) (items.set cc t) q.pop i
        (by rw [List.length_set]; omega)]
      by_cases h1 : cc + 1 ≤ i ∧ i < cc + 1 + (PopItems n q.pop).1.length
      · rw [if_pos h1, if_pos (by omega)]
        obtain ⟨k, hk⟩ : ∃ k, i - cc = k + 1 := ⟨i - cc - 1, by omega⟩
        rw [hk, List.getElem?_cons_succ]
        congr 1
        omega
      · rw [if_neg h1]
        by_cases h2 : i = cc
        · subst h2
          rw [if_pos (by omega), List.getElem?_set, if_pos rfl, if_pos (by omega)]
          simp
        · rw [if_neg (by omega), List.getElem?_set, if_neg (by omega)]

/-- In a list sorted by non-increasing priority that dominates the rest of the container,
the entry at position `i` is an `i`-th highest-priority entry of the container. -/
theorem isIthHighest_of_sorted (q D R : List vtkStreamingPriorityQueueItem)
    (hp : List.Perm (D ++ R) q)
    (hs : List.Pairwise (fun a b => b.Priority ≤ a.Priority) D)
    (hb : ∀ a ∈ D, ∀ b ∈ R, b.Priority ≤ a.Priority)
    (i : Nat) (hi : i < D.length) : IsIthHighest q i (D.get ⟨i, hi⟩) := by
  have hD : D = D.take i ++ D.get ⟨i, hi⟩ :: D.drop (i + 1) := by
    have h1 := List.take_append_drop i D
    have h2 := List.getElem_cons_drop D i hi
    rw [← h2] at h1
    exact h1.symm
  generalize hx : D.get ⟨i, hi⟩ = x at hD
  have hA : (D.take i).length = i := by
    rw [List.length_take]; omega
  generalize D.take i = A at hD hA
  generalize D.drop (i + 1) = B at hD
  subst hD
  rw [List.pairwise_append, List.pairwise_cons] at hs
  obtain ⟨_, ⟨hxB, _⟩, hAx⟩ := hs
  have hxR : ∀ b ∈ R, b.Priority ≤ x.Priority :=
    fun b hbR => hb x (by simp) b hbR
  refine ⟨hp.mem_iff.1 (by simp), ?_, ?_⟩
  · rw [← hp.countP_eq, List.countP_append, List.countP_append, List.countP_cons]
    have h1 : List.countP (fun y => decide (x.Priority < y.Priority)) R = 0 := by
      rw [List.countP_eq_zero]
      intro b hbR
      simpa using hxR b hbR
    have h2 : List.countP (fun y => decide (x.Priority < y.Priority)) B = 0 := by
      rw [List.countP_eq_zero]
      intro b hbB
      simpa using hxB b hbB
    have h3 := List.countP_le_length (fun y => decide (x.Priority < y.Priority)) (l := A)
    simp only [h1, h2, lt_self_iff_false, decide_False]
    simp only [Bool.false_eq_true, if_false]
    omega
  · rw [← hp.countP_eq, List.countP_append, List.countP_append, List.countP_cons]
    have h1 : List.countP (fun y => decide (x.Priority ≤ y.Priority)) A = A.length := by
      rw [List.countP_eq_length]
      intro a haA
      simpa using hAx a haA x (by simp)
    simp only [h1, le_refl, decide_True, if_true]
    omega

/-- What `Pop` does on a non-empty queue at a rank that passes the assertion: the returned
identifier is that of the `myid`-th removed item, or the default identifier when fewer
items were removed; the queue keeps the items that were not removed. -/
theorem Pop_eq (self : vtkAMRStreamingPriorityQueue)
    (hne : self.Internals.PriorityQueue ≠ []) (hid : self.myid < self.num_procs) :
    self.Pop = some
      ((((PopItems self.num_procs self.Internals.PriorityQueue).1)[self.myid]?.getD
          vtkStreamingPriorityQueueItem.default).Identifier,
        { self with Internals := { self.Internals with
            PriorityQueue := (PopItems self.num_procs self.Internals.PriorityQueue).2 } }) := by
  have he : self.IsEmpty = false := by
    simp only [IsEmpty, vtkStreamingPriorityQueue.empty]
    cases hq : self.Internals.PriorityQueue with
    | nil => exact absurd hq hne
    | cons _ _ => rfl
  simp only [Pop, he, hid, if_true, Bool.false_eq_true, if_false]
  rw [PopLoop_snd, List.getD_eq_getElem?_getD,
    PopLoop_getElem? self.num_procs 0 _ _ self.myid (by simp)]
  by_cases h : self.myid < (PopItems self.num_procs self.Internals.PriorityQueue).1.length
  · rw [if_pos (by omega)]
    simp
  · rw [if_neg (by omega), List.getElem?_replicate, if_pos hid]
    have hnone :
        ((PopItems self.num_procs self.Internals.PriorityQueue).1)[self.myid]? = none :=
      List.getElem?_eq_none (by omega)
    rw [hnone]
    simp

/-- At a rank that passes the assertion `Pop` returns, and the object it leaves holds the
items that the loop did not remove; this covers the empty queue, which is left as it is. -/
theorem Pop_state (self : vtkAMRStreamingPriorityQueue) (hid : self.myid < self.num_procs) :
    ∃ id : Nat, self.Pop = some (id,
      { self with Internals := { self.Internals with
          PriorityQueue := (PopItems self.num_procs self.Internals.PriorityQueue).2 } }) := by
  by_cases hq : self.Internals.PriorityQueue = []
  · refine ⟨0, ?_⟩
    obtain ⟨⟨q, m⟩, c⟩ := self
    simp only at hq
    subst hq
    cases hn : num_procs { Internals := { PriorityQueue := [], AMRMetadata := m },
                           Controller := c } with
    | zero => rw [hn] at hid; omega
    | succ n =>
      simp [Pop, IsEmpty, vtkStreamingPriorityQueue.empty, PopItems,
        vtkStreamingPriorityQueue.top]
  · exact ⟨_, Pop_eq self hq hid⟩

theorem Pop_atRank_lt (internals : vtkInternals) (P i : Nat) (hiP : i < P)
    (hi : i < (PopItems P internals.PriorityQueue).1.length) :
    (atRank internals P i).Pop = some
      (((PopItems P internals.PriorityQueue).1.get ⟨i, hi⟩).Identifier,
        atRank { internals with PriorityQueue := (PopItems P internals.PriorityQueue).2 } P i) := by
  have hne : internals.PriorityQueue ≠ [] := by
    intro h
    rw [PopItems_length, h] at hi
    simp at hi
  have h := Pop_eq (atRank internals P i) hne hiP
  rw [h]
  simp only [atRank, num_procs, myid]
  rw [List.getElem?_eq_getElem hi]
  rfl

theorem Pop_atRank_ge (internals : vtkInternals) (P i : Nat) (hiP : i < P)
    (hi : (PopItems P internals.PriorityQueue).1.length ≤ i) :
    (atRank internals P i).Pop = some
      (0, atRank { internals with PriorityQueue := (PopItems P internals.PriorityQueue).2 } P i) := by
  by_cases hne : internals.PriorityQueue = []
  · obtain ⟨q, m⟩ := internals
    simp only at hne
    subst hne
    cases P with
    | zero => omega
    | succ n =>
      simp [Pop, IsEmpty, vtkStreamingPriorityQueue.empty, PopItems,
        vtkStreamingPriorityQueue.top, atRank]
  · have h := Pop_eq (atRank internals P i) hne hiP
    rw [h]
    simp only [atRank, num_procs, myid]
    rw [List.getElem?_eq_none hi]
    rfl

/-- The identifiers of the removed items are pairwise different when those of the
container are. -/
theorem PopItems_nodup (n : Nat) (q : vtkStreamingPriorityQueue)
    (h : (q.map (fun x => x.Identifier)).Nodup) :
    ((PopItems n q).1.map (fun x => x.Identifier)).Nodup := by
  have hp := (PopItems_perm n q).map (fun x => x.Identifier)
  rw [List.map_append] at hp
  exact (List.Nodup.of_append_left (hp.nodup_iff.2 h))

/-- C1. Rank fan-out of `Pop`: with `P ≥ 1` ranks and a queue of at least `P` entries with
pairwise different identifiers, rank `i` of an identical copy gets the identifier of an
`i`-th highest-priority entry, and the identifiers that two different ranks get differ. -/
theorem C1_Pop_rank_fan_out (P : Nat) (internals : vtkInternals) (_hP : 1 ≤ P)
    (huniq : (internals.PriorityQueue.map (fun x => x.Identifier)).Nodup)
    (hlen : P ≤ internals.PriorityQueue.length) :
    (∀ i, i < P → ∃ x s, (atRank internals P i).Pop = some (x.Identifier, s) ∧
        IsIthHighest internals.PriorityQueue i x) ∧
    (∀ i j a b s t, i < P → j < P → i ≠ j →
        (atRank internals P i).Pop = some (a, s) →
        (atRank internals P j).Pop = some (b, t) → a ≠ b) := by
  have hDlen : (PopItems P internals.PriorityQueue).1.length = P := by
    rw [PopItems_length]; omega
  have hs := PopItems_sorted P internals.PriorityQueue
  refine ⟨?_, ?_⟩
  · intro i hi
    have hi2 : i < (PopItems P internals.PriorityQueue).1.length := by omega
    exact ⟨_, _, Pop_atRank_lt internals P i hi hi2,
      isIthHighest_of_sorted _ _ _ (PopItems_perm P _) hs.1 hs.2 i hi2⟩
  · intro i j a b s t hi hj hij ha hb
    have hi2 : i < (PopItems P internals.PriorityQueue).1.length := by omega
    have hj2 : j < (PopItems P internals.PriorityQueue).1.length := by omega
    rw [Pop_atRank_lt internals P i hi hi2] at ha
    rw [Pop_atRank_lt internals P j hj hj2] at hb
    simp only [Option.some.injEq, Prod.mk.injEq] at ha hb
    rw [← ha.1, ← hb.1]
    intro heq
    have hnd := PopItems_nodup P internals.PriorityQueue huniq
    have hi3 : i < ((PopItems P internals.PriorityQueue).1.map
        (fun x => x.Identifier)).length := by rw [List.length_map]; exact hi2
    have hj3 : j < ((PopItems P internals.PriorityQueue).1.map
        (fun x => x.Identifier)).length := by rw [List.length_map]; exact hj2
    have h4 : ((PopItems P internals.PriorityQueue).1.map (fun x => x.Identifier))[i] =
        ((PopItems P internals.PriorityQueue).1.map (fun x => x.Identifier))[j] := by
      rw [List.getElem_map, List.getElem_map]
      exact heq
    exact hij ((hnd.getElem_inj_iff).1 h4)

/-- C1, at the example queue with two ranks. -/
theorem C1_Pop_rank_fan_out_witness :
    (1 ≤ 2 ∧ (exampleInternals.PriorityQueue.map (fun x => x.Identifier)).Nodup ∧
      2 ≤ exampleInternals.PriorityQueue.length) ∧
    ((∀ i, i < 2 → ∃ x s, (atRank exampleInternals 2 i).Pop = some (x.Identifier, s) ∧
        IsIthHighest exampleInternals.PriorityQueue i x) ∧
    (∀ i j a b s t, i < 2 → j < 2 → i ≠ j →
        (atRank exampleInternals 2 i).Pop = some (a, s) →
        (atRank exampleInternals 2 j).Pop = some (b, t) → a ≠ b)) :=
  ⟨⟨by decide, by decide, by decide⟩,
    C1_Pop_rank_fan_out 2 exampleInternals (by decide) (by decide) (by decide)⟩

/-- C2. Underflow safety of `Pop`: with `0 < s < P` entries, rank `i < s` gets the
identifier of an `i`-th highest-priority entry, every rank `i` with `s ≤ i < P` gets the
default identifier `0`, and on every rank the queue is empty after the call. -/
theorem C2_Pop_underflow (P s : Nat) (internals : vtkInternals) (_hs : 0 < s) (hsP : s < P)
    (hlen : internals.PriorityQueue.length = s) :
    (∀ i, i < s → ∃ x st, (atRank internals P i).Pop = some (x.Identifier, st) ∧
        IsIthHighest internals.PriorityQueue i x ∧ st.IsEmpty = true) ∧
    (∀ i, s ≤ i → i < P → ∃ st, (atRank internals P i).Pop = some (0, st) ∧
        st.IsEmpty = true) := by
  have hDlen : (PopItems P internals.PriorityQueue).1.length = s := by
    rw [PopItems_length]; omega
  have hR : (PopItems P internals.PriorityQueue).2 = [] := by
    apply List.eq_nil_of_length_eq_zero
    rw [PopItems_rest_length]; omega
  have hso := PopItems_sorted P internals.PriorityQueue
  refine ⟨?_, ?_⟩
  · intro i hi
    have hi2 : i < (PopItems P internals.PriorityQueue).1.length := by omega
    refine ⟨_, _, Pop_atRank_lt internals P i (by omega) hi2,
      isIthHighest_of_sorted _ _ _ (PopItems_perm P _) hso.1 hso.2 i hi2, ?_⟩
    simp [atRank, IsEmpty, vtkStreamingPriorityQueue.empty, hR]
  · intro i hi hiP
    refine ⟨_, Pop_atRank_ge internals P i hiP (by omega), ?_⟩
    simp [atRank, IsEmpty, vtkStreamingPriorityQueue.empty, hR]

/-- C2, at the example queue of three entries with five ranks. -/
theorem C2_Pop_underflow_witness :
    (0 < 3 ∧ 3 < 5 ∧ exampleInternals.PriorityQueue.length = 3) ∧
    ((∀ i, i < 3 → ∃ x st, (atRank exampleInternals 5 i).Pop = some (x.Identifier, st) ∧
        IsIthHighest exampleInternals.PriorityQueue i x ∧ st.IsEmpty = true) ∧
    (∀ i, 3 ≤ i → i < 5 → ∃ st, (atRank exampleInternals 5 i).Pop = some (0, st) ∧
        st.IsEmpty = true)) :=
  ⟨⟨by decide, by decide, by decide⟩,
    C2_Pop_underflow 5 3 exampleInternals (by decide) (by decide) (by decide)⟩

/-- C3. Popping an empty queue is not fatal: whatever the controller (any number of
processes, any rank id, or none), `Pop` on an object whose `IsEmpty()` is true returns the
identifier `0` and leaves the object as it was. -/
theorem C3_Pop_empty (self : vtkAMRStreamingPriorityQueue) (h : self.IsEmpty = true) :
    self.Pop = some (0, self) := by
  simp [Pop, h]

/-- C3, at an empty queue on a rank whose id is even out of range. -/
theorem C3_Pop_empty_witness :
    (atRank exampleEmptyInternals 2 5).IsEmpty = true ∧
      (atRank exampleEmptyInternals 2 5).Pop = some (0, atRank exampleEmptyInternals 2 5) :=
  ⟨by decide, C3_Pop_empty (atRank exampleEmptyInternals 2 5) (by decide)⟩

/-- One call leaves two objects with equal internals and the same number of processes with
equal internals again, whatever their rank ids, and keeps their controllers. -/
theorem Call_run_congr (upd : UpdatePrioritiesFn) (c : Call)
    (s1 s2 : vtkAMRStreamingPriorityQueue) (hint : s1.Internals = s2.Internals)
    (hn : s1.num_procs = s2.num_procs) (h1 : s1.myid < s1.num_procs)
    (h2 : s2.myid < s2.num_procs) :
    ∃ t1 t2, c.run upd s1 = some t1 ∧ c.run upd s2 = some t2 ∧
      t1.Internals = t2.Internals ∧ t1.Controller = s1.Controller ∧
      t2.Controller = s2.Controller := by
  obtain ⟨int1, c1⟩ := s1
  obtain ⟨int2, c2⟩ := s2
  simp only at hint
  subst hint
  cases c with
  | init amr => exact ⟨_, _, rfl, rfl, rfl, rfl, rfl⟩
  | reinit =>
    refine ⟨_, _, rfl, rfl, ?_, ?_, ?_⟩
    · cases hm : int1.AMRMetadata <;> simp [ Reinitialize, hm, Initialize]
    · cases hm : int1.AMRMetadata <;> simp [ Reinitialize, hm, Initialize]
    · cases hm : int1.AMRMetadata <;> simp [ Reinitialize, hm, Initialize]
  | update vp cb =>
    refine ⟨_, _, rfl, rfl, ?_, ?_, ?_⟩
    · cases hm : int1.AMRMetadata <;> simp [Update, hm]
    · cases hm : int1.AMRMetadata <;> simp [Update, hm]
    · cases hm : int1.AMRMetadata <;> simp [Update, hm]
  | pop =>
    obtain ⟨id1, e1⟩ := Pop_state _ h1
    obtain ⟨id2, e2⟩ := Pop_state _ h2
    rw [hn] at e1
    refine ⟨{ Internals := { int1 with PriorityQueue :=
                (PopItems (num_procs { Internals := int1, Controller := c2 })
                  int1.PriorityQueue).2 },
              Controller := c1 },
            { Internals := { int1 with PriorityQueue :=
                (PopItems (num_procs { Internals := int1, Controller := c2 })
                  int1.PriorityQueue).2 },
              Controller := c2 }, ?_, ?_, rfl, rfl, rfl⟩
    · simp only [Call.run, e1, Option.map_some']
    · simp only [Call.run, e2, Option.map_some']

/-- A sequence of calls leaves two objects with equal internals and the same number of
processes with equal internals, whatever their rank ids. -/
theorem runCalls_congr (upd : UpdatePrioritiesFn) :
    ∀ (calls : List Call) (s1 s2 : vtkAMRStreamingPriorityQueue),
      s1.Internals = s2.Internals → s1.num_procs = s2.num_procs →
      s1.myid < s1.num_procs → s2.myid < s2.num_procs →
      ∃ t1 t2, runCalls upd calls s1 = some t1 ∧ runCalls upd calls s2 = some t2 ∧
        t1.Internals = t2.Internals ∧ t1.Controller = s1.Controller ∧
        t2.Controller = s2.Controller
  | [], s1, s2, hint, _, _, _ => ⟨s1, s2, rfl, rfl, hint, rfl, rfl⟩
  | c :: cs, s1, s2, hint, hn, h1, h2 => by
    obtain ⟨u1, u2, e1, e2, hu, hc1, hc2⟩ := Call_run_congr upd c s1 s2 hint hn h1 h2
    have hn1 : u1.num_procs = s1.num_procs := by simp only [num_procs, hc1]
    have hn2 : u2.num_procs = s2.num_procs := by simp only [num_procs, hc2]
    have hm1 : u1.myid = s1.myid := by simp only [myid, hc1]
    have hm2 : u2.myid = s2.myid := by simp only [myid, hc2]
    obtain ⟨t1, t2, f1, f2, ht, hd1, hd2⟩ := runCalls_congr upd cs u1 u2 hu
      (by rw [hn1, hn2, hn]) (by rw [hn1, hm1]; exact h1) (by rw [hn2, hm2]; exact h2)
    exact ⟨t1, t2, by simp only [runCalls, e1, f1], by simp only [runCalls, e2, f2], ht,
      hd1.trans hc1, hd2.trans hc2⟩

/-- C4. Cross-rank consistency of `Pop`: on a queue of `s` entries with `P` processes, `Pop`
takes out `min P s` entries, each of priority at least that of every entry it leaves, and
leaves the other `s - min P s` entries as they were and in their order; the internals after
the call are the same at every rank id; and two ranks that start from equal internals and
run the same sequence of `Initialize` / `Reinitialize` / `Update` / `Pop` calls end with
equal internals (for every sequence, hence after every step). -/
theorem C4_Pop_cross_rank_consistency (upd : UpdatePrioritiesFn) (internals : vtkInternals)
    (P i j : Nat) (hi : i < P) (hj : j < P) :
    (∃ id st D, (atRank internals P i).Pop = some (id, st) ∧
        st.Internals.AMRMetadata = internals.AMRMetadata ∧
        D.length = min P internals.PriorityQueue.length ∧
        st.Internals.PriorityQueue.length =
          internals.PriorityQueue.length - min P internals.PriorityQueue.length ∧
        List.Perm (D ++ st.Internals.PriorityQueue) internals.PriorityQueue ∧
        List.Sublist st.Internals.PriorityQueue internals.PriorityQueue ∧
        (∀ a ∈ D, ∀ b ∈ st.Internals.PriorityQueue, b.Priority ≤ a.Priority)) ∧
    ((atRank internals P i).Pop.map (fun r => r.2.Internals) =
      (atRank internals P j).Pop.map (fun r => r.2.Internals)) ∧
    (∀ calls : List Call, ∃ si sj,
        runCalls upd calls (atRank internals P i) = some si ∧
        runCalls upd calls (atRank internals P j) = some sj ∧
        si.Internals = sj.Internals) := by
  obtain ⟨idi, ei⟩ := Pop_state (atRank internals P i) hi
  obtain ⟨idj, ej⟩ := Pop_state (atRank internals P j) hj
  refine ⟨⟨idi, _, (PopItems P internals.PriorityQueue).1, ei, rfl,
    PopItems_length P _, PopItems_rest_length P _, PopItems_perm P _,
    PopItems_sublist P _, (PopItems_sorted P _).2⟩, ?_, ?_⟩
  · rw [ei, ej]
    rfl
  · intro calls
    obtain ⟨t1, t2, f1, f2, ht, _, _⟩ := runCalls_congr upd calls
      (atRank internals P i) (atRank internals P j) rfl rfl hi hj
    exact ⟨t1, t2, f1, f2, ht⟩

/-- C4, at the example queue on ranks `0` and `1` of two, with an `UpdatePriorities` that
leaves the container as it is. -/
theorem C4_Pop_cross_rank_consistency_witness :
    (0 < 2 ∧ 1 < 2) ∧
    ((∃ id st D, (atRank exampleInternals 2 0).Pop = some (id, st) ∧
        st.Internals.AMRMetadata = exampleInternals.AMRMetadata ∧
        D.length = min 2 exampleInternals.PriorityQueue.length ∧
        st.Internals.PriorityQueue.length =
          exampleInternals.PriorityQueue.length - min 2 exampleInternals.PriorityQueue.length ∧
        List.Perm (D ++ st.Internals.PriorityQueue) exampleInternals.PriorityQueue ∧
        List.Sublist st.Internals.PriorityQueue exampleInternals.PriorityQueue ∧
        (∀ a ∈ D, ∀ b ∈ st.Internals.PriorityQueue, b.Priority ≤ a.Priority)) ∧
    ((atRank exampleInternals 2 0).Pop.map (fun r => r.2.Internals) =
      (atRank exampleInternals 2 1).Pop.map (fun r => r.2.Internals)) ∧
    (∀ calls : List Call, ∃ si sj,
        runCalls (fun _ _ q => q) calls (atRank exampleInternals 2 0) = some si ∧
        runCalls (fun _ _ q => q) calls (atRank exampleInternals 2 1) = some sj ∧
        si.Internals = sj.Internals)) :=
  ⟨⟨by decide, by decide⟩,
    C4_Pop_cross_rank_consistency (fun _ _ q => q) exampleInternals 2 0 1
      (by decide) (by decide)⟩

/-! ## `Initialize` and `Reinitialize` -/

theorem InitializeLoop_eq (amr : vtkOverlappingAMRMetaData) :
    ∀ (n cc : Nat) (q : vtkStreamingPriorityQueue),
      InitializeLoop amr n cc q = q ++ (List.range' cc n).map (InitializeItem amr)
  | 0, _, q => by simp [InitializeLoop]
  | n + 1, cc, q => by
    rw [InitializeLoop, InitializeLoop_eq amr n (cc + 1), List.range'_succ]
    simp [vtkStreamingPriorityQueue.push]

theorem Initialize_queue (self : vtkAMRStreamingPriorityQueue)
    (amr : vtkOverlappingAMRMetaData) :
    (self.Initialize amr).Internals.PriorityQueue =
      (List.range amr.GetNumberOfBlocks).map (InitializeItem amr) := by
  simp only [Initialize, InitializeLoop_eq, vtkInternals.new, List.nil_append,
    List.range_eq_range']

theorem Initialize_length (self : vtkAMRStreamingPriorityQueue)
    (amr : vtkOverlappingAMRMetaData) :
    (self.Initialize amr).Internals.PriorityQueue.length = amr.GetNumberOfBlocks := by
  rw [Initialize_queue]
  simp

theorem Initialize_ids (self : vtkAMRStreamingPriorityQueue)
    (amr : vtkOverlappingAMRMetaData) :
    (self.Initialize amr).Internals.PriorityQueue.map (fun x => x.Identifier) =
      List.range amr.GetNumberOfBlocks := by
  rw [Initialize_queue, List.map_map]
  have h : ((fun x : vtkStreamingPriorityQueueItem => x.Identifier) ∘ InitializeItem amr) =
      id := by
    funext c
    rfl
  rw [h, List.map_id]

/-- C6. `Initialize` builds a dense catalog and resets previous state: the queue holds
exactly `N = GetNumberOfBlocks()` entries, their identifiers are `0, 1, ..., N-1` (each
once), the entry with identifier `c` has priority `N - c`, refinement equal to the level of
`ComputeIndexPair(c)` and bounds equal to `GetBounds(level, index)`; the metadata pointer is
the argument; and the internals do not depend on the object's prior state. -/
theorem C6_Initialize_dense_catalog (self : vtkAMRStreamingPriorityQueue)
    (amr : vtkOverlappingAMRMetaData) :
    (self.Initialize amr).Internals.PriorityQueue.length = amr.GetNumberOfBlocks ∧
    (self.Initialize amr).Internals.PriorityQueue.map (fun x => x.Identifier) =
      List.range amr.GetNumberOfBlocks ∧
    (∀ x ∈ (self.Initialize amr).Internals.PriorityQueue,
      x.Identifier < amr.GetNumberOfBlocks ∧
      x.Priority = (amr.GetNumberOfBlocks : ℚ) - (x.Identifier : ℚ) ∧
      x.Refinement = ((amr.ComputeIndexPair x.Identifier).1 : ℚ) ∧
      x.Bounds = { box := some (amr.GetBounds (amr.ComputeIndexPair x.Identifier).1
        (amr.ComputeIndexPair x.Identifier).2) }) ∧
    (self.Initialize amr).Internals.AMRMetadata = some amr ∧
    (self.Initialize amr).Controller = self.Controller ∧
    (∀ other : vtkAMRStreamingPriorityQueue,
      (other.Initialize amr).Internals = (self.Initialize amr).Internals) := by
  refine ⟨Initialize_length self amr, Initialize_ids self amr, ?_, rfl, rfl, fun _ => rfl⟩
  · intro x hx
    rw [Initialize_queue] at hx
    obtain ⟨c, hc, rfl⟩ := List.mem_map.1 hx
    have hcN : c < amr.GetNumberOfBlocks := List.mem_range.1 hc
    refine ⟨hcN, ?_, rfl, rfl⟩
    show ((amr.GetNumberOfBlocks - c : Nat) : ℚ) = (amr.GetNumberOfBlocks : ℚ) - (c : ℚ)
    exact Nat.cast_sub (le_of_lt hcN)

/-- After `Initialize` the container is ordered by non-increasing priority. -/
theorem Initialize_sorted (self : vtkAMRStreamingPriorityQueue)
    (amr : vtkOverlappingAMRMetaData) :
    List.Pairwise (fun a b : vtkStreamingPriorityQueueItem => b.Priority ≤ a.Priority)
      (self.Initialize amr).Internals.PriorityQueue := by
  rw [Initialize_queue, List.pairwise_map]
  refine List.Pairwise.imp ?_ (List.pairwise_lt_range amr.GetNumberOfBlocks)
  intro a b hab
  show ((amr.GetNumberOfBlocks - b : Nat) : ℚ) ≤ ((amr.GetNumberOfBlocks - a : Nat) : ℚ)
  exact Nat.cast_le.2 (Nat.sub_le_sub_left (le_of_lt hab) _)

/-! ## Draining the queue -/

/-- On a container ordered by non-increasing priority the loop of `Pop` takes the items
from the front. -/
theorem PopItems_of_sorted : ∀ (n : Nat) (q : vtkStreamingPriorityQueue),
    List.Pairwise (fun a b : vtkStreamingPriorityQueueItem => b.Priority ≤ a.Priority) q →
    PopItems n q = (q.take n, q.drop n)
  | 0, q, _ => by simp [PopItems]
  | n + 1, [], _ => by simp [PopItems, vtkStreamingPriorityQueue.top]
  | n + 1, x :: xs, h => by
    rw [List.pairwise_cons] at h
    have he := extractTop_of_head_ge x xs h.1
    have ih := PopItems_of_sorted n xs h.2
    simp only [PopItems, vtkStreamingPriorityQueue.top, vtkStreamingPriorityQueue.pop, he, ih,
      List.take_succ_cons, List.drop_succ_cons]

/-- The drain loop returns at every rank that passes the assertion of `Pop`, within as
many rounds as the queue has entries, and leaves the queue empty. -/
theorem Drain_total : ∀ (fuel : Nat) (self : vtkAMRStreamingPriorityQueue),
    self.myid < self.num_procs → self.Internals.PriorityQueue.length ≤ fuel →
    ∃ ids st, Drain fuel self = some (ids, st) ∧ st.IsEmpty = true
  | 0, self, _, hlen => by
    have he : self.IsEmpty = true := by
      have h0 : self.Internals.PriorityQueue = [] :=
        List.eq_nil_of_length_eq_zero (by omega)
      simp [IsEmpty, vtkStreamingPriorityQueue.empty, h0]
    exact ⟨[], self, by simp [Drain, he], he⟩
  | fuel + 1, self, hid, hlen => by
    by_cases he : self.IsEmpty = true
    · exact ⟨[], self, by simp [Drain, he], he⟩
    · obtain ⟨id, hpop⟩ := Pop_state self hid
      have hne : self.Internals.PriorityQueue ≠ [] := by
        intro h0
        apply he
        simp [IsEmpty, vtkStreamingPriorityQueue.empty, h0]
      have hpos : 0 < self.Internals.PriorityQueue.length := List.length_pos.2 hne
      have hrest := PopItems_rest_length self.num_procs self.Internals.PriorityQueue
      obtain ⟨ids, st, hd, hst⟩ := Drain_total fuel
        { self with Internals := { self.Internals with
            PriorityQueue := (PopItems self.num_procs self.Internals.PriorityQueue).2 } }
        hid (by simp only []; rw [hrest]; omega)
      refine ⟨id :: ids, st, ?_, hst⟩
      simp only [Drain, he, hpop, hd]
      simp

/-- With a single process, draining a container ordered by non-increasing priority returns
the identifiers in the order of the container. -/
theorem Drain_single_sorted : ∀ (q : vtkStreamingPriorityQueue) (fuel : Nat)
    (self : vtkAMRStreamingPriorityQueue),
    self.Internals.PriorityQueue = q → self.num_procs = 1 → self.myid < self.num_procs →
    List.Pairwise (fun a b : vtkStreamingPriorityQueueItem => b.Priority ≤ a.Priority) q →
    q.length ≤ fuel →
    ∃ st, Drain fuel self = some (q.map (fun x => x.Identifier), st) ∧ st.IsEmpty = true
  | [], fuel, self, hq, _, _, _, _ => by
    have he : self.IsEmpty = true := by
      simp [IsEmpty, vtkStreamingPriorityQueue.empty, hq]
    refine ⟨self, ?_, he⟩
    cases fuel <;> simp [Drain, he]
  | x :: xs, 0, _, _, _, _, _, hlen => by simp at hlen
  | x :: xs, fuel + 1, self, hq, h1, hid, hs, hlen => by
    have he : ¬ self.IsEmpty = true := by
      simp [IsEmpty, vtkStreamingPriorityQueue.empty, hq]
    have hne : self.Internals.PriorityQueue ≠ [] := by rw [hq]; simp
    have hpop := Pop_eq self hne hid
    have hm : self.myid = 0 := by omega
    rw [h1, hm, hq, PopItems_of_sorted 1 (x :: xs) hs] at hpop
    simp only [List.take_succ_cons, List.take_zero, List.drop_succ_cons, List.drop_zero,
      List.getElem?_cons_zero, Option.getD_some] at hpop
    obtain ⟨st, hd, hst⟩ := Drain_single_sorted xs fuel
      { self with Internals := { self.Internals with PriorityQueue := xs } }
      rfl h1 hid (List.pairwise_cons.1 hs).2 (by simp at hlen; omega)
    refine ⟨st, ?_, hst⟩
    simp only [Drain, he, hpop, hd]
    simp

/-- C5. Coarse-first default order: right after `Initialize(amr)`, with a single process
and metadata that numbers its blocks level by level, repeated `Pop` until the queue is
empty returns every block once, and a block `a` of lower level than a block `b` is
returned before `b`. -/
theorem C5_coarse_first_default (self : vtkAMRStreamingPriorityQueue)
    (amr : vtkOverlappingAMRMetaData) (h1 : self.num_procs = 1)
    (hid : self.myid < self.num_procs)
    (hlevels : ∀ a b, a < amr.GetNumberOfBlocks → b < amr.GetNumberOfBlocks → a ≤ b →
      (amr.ComputeIndexPair a).1 ≤ (amr.ComputeIndexPair b).1)
    (a b : Nat) (ha : a < amr.GetNumberOfBlocks) (hb : b < amr.GetNumberOfBlocks)
    (hlt : (amr.ComputeIndexPair a).1 < (amr.ComputeIndexPair b).1) :
    ∃ ids st, Drain amr.GetNumberOfBlocks (self.Initialize amr) = some (ids, st) ∧
      st.IsEmpty = true ∧ ids.Nodup ∧
      ∃ i j : Nat, i < j ∧ ids[i]? = some a ∧ ids[j]? = some b := by
  have hlen := Initialize_length self amr
  have hids := Initialize_ids self amr
  obtain ⟨st, hd, hst⟩ := Drain_single_sorted _ amr.GetNumberOfBlocks (self.Initialize amr)
    rfl h1 hid (Initialize_sorted self amr) (le_of_eq hlen)
  rw [hids] at hd
  refine ⟨_, st, hd, hst, List.nodup_range _, a, b, ?_, ?_, ?_⟩
  · by_contra hn
    have hle := hlevels b a hb ha (by omega)
    omega
  · rw [List.getElem?_range ha]
  · rw [List.getElem?_range hb]

/-- C5, at the example metadata (block `0` on level `0`, blocks `1, 2` on level `1`) with
a null controller, for the blocks `0` and `2`. -/
theorem C5_coarse_first_default_witness :
    (exampleObject.num_procs = 1 ∧ exampleObject.myid < exampleObject.num_procs ∧
      (0 < exampleAMR.GetNumberOfBlocks ∧ 2 < exampleAMR.GetNumberOfBlocks) ∧
      (exampleAMR.ComputeIndexPair 0).1 < (exampleAMR.ComputeIndexPair 2).1) ∧
    ∃ ids st, Drain exampleAMR.GetNumberOfBlocks (exampleObject.Initialize exampleAMR) =
        some (ids, st) ∧
      st.IsEmpty = true ∧ ids.Nodup ∧
      ∃ i j : Nat, i < j ∧ ids[i]? = some 0 ∧ ids[j]? = some 2 :=
  ⟨⟨by decide, by decide, ⟨by decide, by decide⟩, by decide⟩,
    C5_coarse_first_default exampleObject exampleAMR (by decide) (by decide)
      (by
        intro a b ha hb hab
        simp only [exampleAMR] at ha hb ⊢
        by_cases h0 : a = 0
        · subst h0
          by_cases hb0 : b = 0 <;> simp [hb0]
        · have hb0 : b ≠ 0 := by omega
          simp [h0, hb0])
      0 2 (by decide) (by decide) (by decide)⟩

/-- `Pop` and `Update` calls, at a rank that passes the assertion of `Pop`, all return and
keep the metadata pointer and the controller. -/
theorem runCalls_pop_update (upd : UpdatePrioritiesFn) :
    ∀ (calls : List Call) (s : vtkAMRStreamingPriorityQueue),
      s.myid < s.num_procs → (∀ c ∈ calls, c.isPopOrUpdate = true) →
      ∃ t, runCalls upd calls s = some t ∧
        t.Internals.AMRMetadata = s.Internals.AMRMetadata ∧ t.Controller = s.Controller
  | [], s, _, _ => ⟨s, rfl, rfl, rfl⟩
  | c :: cs, s, hid, hall => by
    have hc : c.isPopOrUpdate = true := hall c (List.mem_cons_self _ _)
    have hcs : ∀ d ∈ cs, d.isPopOrUpdate = true :=
      fun d hd => hall d (List.mem_cons_of_mem _ hd)
    have hstep : ∃ u, c.run upd s = some u ∧
        u.Internals.AMRMetadata = s.Internals.AMRMetadata ∧ u.Controller = s.Controller := by
      cases c with
      | init amr => simp [Call.isPopOrUpdate] at hc
      | reinit => simp [Call.isPopOrUpdate] at hc
      | update vp cb =>
        refine ⟨_, rfl, ?_, ?_⟩
        · cases hm : s.Internals.AMRMetadata <;> simp [Update, hm]
        · cases hm : s.Internals.AMRMetadata <;> simp [Update, hm]
      | pop =>
        obtain ⟨id, e⟩ := Pop_state s hid
        exact ⟨{ s with Internals := { s.Internals with
            PriorityQueue := (PopItems s.num_procs s.Internals.PriorityQueue).2 } },
          by simp only [Call.run, e, Option.map_some'], rfl, rfl⟩
    obtain ⟨u, eu, hum, huc⟩ := hstep
    have hidu : u.myid < u.num_procs := by
      simp only [myid, num_procs, huc]
      exact hid
    obtain ⟨t, et, htm, htc⟩ := runCalls_pop_update upd cs u hidu hcs
    exact ⟨t, by simp only [runCalls, eu, et], htm.trans hum, htc.trans huc⟩

theorem Reinitialize_idem (self : vtkAMRStreamingPriorityQueue) :
    Reinitialize ( Reinitialize self) = Reinitialize self := by
  cases hm : self.Internals.AMRMetadata with
  | none => simp [ Reinitialize, hm]
  | some m => simp [ Reinitialize, hm, Initialize]

/-- C7. `Reinitialize` restores the catalog: after `Initialize(m)` and any sequence of
`Pop` and `Update` calls (all of which return), `Reinitialize()` yields exactly the object
that `Initialize(m)` yielded; `Reinitialize` is idempotent; and on an object without
metadata it changes nothing. -/
theorem C7_Reinitialize_restores_catalog (upd : UpdatePrioritiesFn)
    (self0 : vtkAMRStreamingPriorityQueue) (m : vtkOverlappingAMRMetaData)
    (calls : List Call) (hid : self0.myid < self0.num_procs)
    (hcalls : ∀ c ∈ calls, c.isPopOrUpdate = true) :
    (∃ s, runCalls upd calls (self0.Initialize m) = some s ∧
      Reinitialize s = self0.Initialize m) ∧
    (∀ self : vtkAMRStreamingPriorityQueue,
      Reinitialize ( Reinitialize self) = Reinitialize self) ∧
    (∀ self : vtkAMRStreamingPriorityQueue,
      self.Internals.AMRMetadata = none → Reinitialize self = self) := by
  refine ⟨?_, Reinitialize_idem, ?_⟩
  · obtain ⟨t, et, htm, htc⟩ := runCalls_pop_update upd calls (self0.Initialize m) hid hcalls
    refine ⟨t, et, ?_⟩
    have hm : t.Internals.AMRMetadata = some m := htm
    have hc : t.Controller = self0.Controller := htc
    simp only [ Reinitialize, hm, Initialize, hc]
  · intro self hm
    simp only [ Reinitialize, hm]

/-- C7, at the example object and metadata, for the calls `Pop`, `Update`, `Pop` with an
`UpdatePriorities` that leaves the container as it is. -/
theorem C7_Reinitialize_restores_catalog_witness :
    (exampleObject.myid < exampleObject.num_procs ∧
      ∀ c ∈ [Call.pop, Call.update exampleViewPlanes UninitializeBounds, Call.pop],
        c.isPopOrUpdate = true) ∧
    ((∃ s, runCalls (fun _ _ q => q)
        [Call.pop, Call.update exampleViewPlanes UninitializeBounds, Call.pop]
        (exampleObject.Initialize exampleAMR) = some s ∧
      Reinitialize s = exampleObject.Initialize exampleAMR) ∧
    (∀ self : vtkAMRStreamingPriorityQueue,
      Reinitialize ( Reinitialize self) = Reinitialize self) ∧
    (∀ self : vtkAMRStreamingPriorityQueue,
      self.Internals.AMRMetadata = none → Reinitialize self = self)) :=
  ⟨⟨by decide, by simp [Call.isPopOrUpdate]⟩,
    C7_Reinitialize_restores_catalog (fun _ _ q => q) exampleObject exampleAMR
      [Call.pop, Call.update exampleViewPlanes UninitializeBounds, Call.pop]
      (by decide) (by simp [Call.isPopOrUpdate])⟩

/-- C8. `Update` preserves set membership, for the `UpdatePriorities` that the spec
describes: for every score function, view planes and clamp bounds, the identifiers held
after `Update(view_planes, clamp_bounds)` and after `Update(view_planes)` are those held
before, entry by entry; refinement and bounds are kept as well; and on an object without
metadata `Update` changes nothing. -/
theorem C8_Update_preserves_membership
    (score : ViewPlanes → Bounds6 → vtkBoundingBox → ℚ → ℚ)
    (self : vtkAMRStreamingPriorityQueue) (view_planes : ViewPlanes)
    (clamp_bounds : Bounds6) :
    (Update (vtkStreamingPriorityQueue.UpdatePriorities score) self view_planes
        clamp_bounds).Internals.PriorityQueue.map (fun x => x.Identifier) =
      self.Internals.PriorityQueue.map (fun x => x.Identifier) ∧
    (UpdateNoClamp (vtkStreamingPriorityQueue.UpdatePriorities score) self
        view_planes).Internals.PriorityQueue.map (fun x => x.Identifier) =
      self.Internals.PriorityQueue.map (fun x => x.Identifier) ∧
    (Update (vtkStreamingPriorityQueue.UpdatePriorities score) self view_planes
        clamp_bounds).Internals.PriorityQueue.map (fun x => (x.Refinement, x.Bounds)) =
      self.Internals.PriorityQueue.map (fun x => (x.Refinement, x.Bounds)) ∧
    (self.Internals.AMRMetadata = none →
      Update (vtkStreamingPriorityQueue.UpdatePriorities score) self view_planes
        clamp_bounds = self) := by
  refine ⟨?_, ?_, ?_, ?_⟩
  · cases hm : self.Internals.AMRMetadata <;>
      simp [Update, hm, vtkStreamingPriorityQueue.UpdatePriorities, Function.comp_def]
  · cases hm : self.Internals.AMRMetadata <;>
      simp [UpdateNoClamp, Update, hm, vtkStreamingPriorityQueue.UpdatePriorities,
        Function.comp_def]
  · cases hm : self.Internals.AMRMetadata <;>
      simp [Update, hm, vtkStreamingPriorityQueue.UpdatePriorities, Function.comp_def]
  · intro hm
    simp [Update, hm]

/-- C9. Determinism of the drain order: for every metadata object and view planes, two
runs of `Initialize(amr); Update(view_planes);` and `Pop` until `IsEmpty()`, from any two
prior states of the object at the same rank, both return, leave the queue empty and
produce the same sequence of identifiers. -/
theorem C9_drain_deterministic (upd : UpdatePrioritiesFn) (amr : vtkOverlappingAMRMetaData)
    (view_planes : ViewPlanes) (self1 self2 : vtkAMRStreamingPriorityQueue)
    (hc : self1.Controller = self2.Controller) (hid : self1.myid < self1.num_procs)
    (fuel : Nat)
    (hfuel : (UpdateNoClamp upd (self1.Initialize amr)
      view_planes).Internals.PriorityQueue.length ≤ fuel) :
    ∃ ids st1 st2,
      Drain fuel (UpdateNoClamp upd (self1.Initialize amr) view_planes) = some (ids, st1) ∧
      Drain fuel (UpdateNoClamp upd (self2.Initialize amr) view_planes) = some (ids, st2) ∧
      st1.IsEmpty = true ∧ st2.IsEmpty = true := by
  have heq : self2.Initialize amr = self1.Initialize amr := by
    simp only [Initialize, hc]
  have hid2 : (UpdateNoClamp upd (self1.Initialize amr) view_planes).myid <
      (UpdateNoClamp upd (self1.Initialize amr) view_planes).num_procs := hid
  obtain ⟨ids, st, hd, hst⟩ := Drain_total fuel _ hid2 hfuel
  exact ⟨ids, st, st, hd, by rw [heq]; exact hd, hst, hst⟩

/-- C9, at the example metadata, from the example object and from an object with an empty
queue, with an `UpdatePriorities` that leaves the container as it is. -/
theorem C9_drain_deterministic_witness :
    (exampleObject.Controller =
        ({ Internals := exampleEmptyInternals, Controller := none } :
          vtkAMRStreamingPriorityQueue).Controller ∧
      exampleObject.myid < exampleObject.num_procs ∧
      (UpdateNoClamp (fun _ _ q => q) (exampleObject.Initialize exampleAMR)
        exampleViewPlanes).Internals.PriorityQueue.length ≤ 3) ∧
    ∃ ids st1 st2,
      Drain 3 (UpdateNoClamp (fun _ _ q => q) (exampleObject.Initialize exampleAMR)
        exampleViewPlanes) = some (ids, st1) ∧
      Drain 3 (UpdateNoClamp (fun _ _ q => q)
        (({ Internals := exampleEmptyInternals, Controller := none } :
          vtkAMRStreamingPriorityQueue).Initialize exampleAMR)
        exampleViewPlanes) = some (ids, st2) ∧
      st1.IsEmpty = true ∧ st2.IsEmpty = true :=
  ⟨⟨rfl, by decide, by decide⟩,
    C9_drain_deterministic (fun _ _ q => q) exampleAMR exampleViewPlanes exampleObject
      { Internals := exampleEmptyInternals, Controller := none } rfl (by decide) 3
      (by decide)⟩

/-! ## The default streaming schedule -/

/-- On a container ordered by non-increasing priority, `Pop` at a rank that passes the
assertion returns the identifier at position `myid`, or the default identifier when there
is none, and drops the first `num_procs` items. -/
theorem Pop_sorted (self : vtkAMRStreamingPriorityQueue) (hid : self.myid < self.num_procs)
    (hs : List.Pairwise (fun a b : vtkStreamingPriorityQueueItem => b.Priority ≤ a.Priority)
      self.Internals.PriorityQueue) :
    self.Pop = some
      ((self.Internals.PriorityQueue[self.myid]?.getD
          vtkStreamingPriorityQueueItem.default).Identifier,
        { self with Internals := { self.Internals with
            PriorityQueue := self.Internals.PriorityQueue.drop self.num_procs } }) := by
  by_cases hq : self.Internals.PriorityQueue = []
  · obtain ⟨⟨q, m⟩, c⟩ := self
    simp only at hq
    subst hq
    simp [Pop, IsEmpty, vtkStreamingPriorityQueue.empty, vtkStreamingPriorityQueueItem.default]
  · rw [Pop_eq self hq hid, PopItems_of_sorted _ _ hs]
    simp only [List.getElem?_take, hid, if_true]

theorem PopTimes_sorted : ∀ (k : Nat) (self : vtkAMRStreamingPriorityQueue)
    (q : vtkStreamingPriorityQueue) (P : Nat),
    self.Internals.PriorityQueue = q → self.num_procs = P → self.myid < P →
    List.Pairwise (fun a b : vtkStreamingPriorityQueueItem => b.Priority ≤ a.Priority) q →
    PopTimes k self = some
      { self with Internals := { self.Internals with PriorityQueue := q.drop (k * P) } }
  | 0, self, q, P, hq, _, _, _ => by
    subst hq
    simp [PopTimes]
  | k + 1, self, q, P, hq, hP, hid, hs => by
    subst hq
    subst hP
    have ih := PopTimes_sorted k
      { self with Internals := { self.Internals with
          PriorityQueue := self.Internals.PriorityQueue.drop self.num_procs } }
      (self.Internals.PriorityQueue.drop self.num_procs) self.num_procs rfl rfl hid
      (List.Pairwise.sublist (List.drop_sublist _ _) hs)
    have harith : self.num_procs + k * self.num_procs = (k + 1) * self.num_procs := by
      rw [Nat.succ_mul]; omega
    simp only [PopTimes, Pop_sorted self hid hs, ih, List.drop_drop, harith]

/-- The `k`-th `Pop` in a row on a container ordered by non-increasing priority. -/
theorem PopTimes_Pop_sorted (k : Nat) (self : vtkAMRStreamingPriorityQueue)
    (q : vtkStreamingPriorityQueue) (P i : Nat)
    (hq : self.Internals.PriorityQueue = q) (hP : self.num_procs = P) (hi : self.myid = i)
    (hlt : i < P)
    (hs : List.Pairwise (fun a b : vtkStreamingPriorityQueueItem => b.Priority ≤ a.Priority)
      q) :
    ∃ sk st, PopTimes k self = some sk ∧
      sk.Internals.PriorityQueue = q.drop (k * P) ∧
      sk.Pop = some
        (((q.drop (k * P))[i]?.getD vtkStreamingPriorityQueueItem.default).Identifier, st) ∧
      st.Internals.PriorityQueue = q.drop ((k + 1) * P) := by
  subst hq
  subst hP
  subst hi
  have hk := PopTimes_sorted k self _ _ rfl rfl hlt hs
  have hs1 : List.Pairwise
      (fun a b : vtkStreamingPriorityQueueItem => b.Priority ≤ a.Priority)
      (List.drop (k * self.num_procs) self.Internals.PriorityQueue) :=
    List.Pairwise.sublist (List.drop_sublist _ _) hs
  obtain ⟨sk, hsk⟩ : ∃ sk, sk = ({ self with Internals := { self.Internals with
      PriorityQueue := self.Internals.PriorityQueue.drop (k * self.num_procs) } } :
      vtkAMRStreamingPriorityQueue) := ⟨_, rfl⟩
  have hq1 : sk.Internals.PriorityQueue =
      self.Internals.PriorityQueue.drop (k * self.num_procs) := by rw [hsk]
  have hn1 : sk.num_procs = self.num_procs := by rw [hsk]; rfl
  have hm1 : sk.myid = self.myid := by rw [hsk]; rfl
  have hpop := Pop_sorted sk (by rw [hn1, hm1]; exact hlt) (by rw [hq1]; exact hs1)
  rw [hq1, hn1, hm1] at hpop
  refine ⟨sk, _, by rw [hk, hsk], hq1, hpop, ?_⟩
  show List.drop _ (List.drop _ _) = _
  rw [List.drop_drop, Nat.succ_mul]

theorem ceil_div_le_iff (N P k : Nat) (hP : 0 < P) : (N + P - 1) / P ≤ k ↔ N ≤ k * P := by
  rw [← Nat.lt_succ_iff, Nat.div_lt_iff_lt_mul hP, Nat.succ_mul]
  omega

theorem split_index_iff (P c k i : Nat) (hi : i < P) :
    k * P + i = c ↔ k = c / P ∧ i = c % P := by
  have hP : 0 < P := by omega
  constructor
  · intro h
    subst h
    constructor
    · rw [Nat.mul_comm, Nat.mul_add_div hP, Nat.div_eq_of_lt hi]
      omega
    · rw [Nat.mul_comm, Nat.mul_add_mod, Nat.mod_eq_of_lt hi]
  · rintro ⟨rfl, rfl⟩
    rw [Nat.mul_comm]
    exact Nat.div_add_mod c P

/-- The identifier read at position `i` of what is left of the freshly initialized
container after dropping `d` items. -/
theorem Initialize_drop_getD (self : vtkAMRStreamingPriorityQueue)
    (amr : vtkOverlappingAMRMetaData) (d i : Nat) :
    ((List.drop d (self.Initialize amr).Internals.PriorityQueue)[i]?.getD
        vtkStreamingPriorityQueueItem.default).Identifier =
      if d + i < amr.GetNumberOfBlocks then d + i else 0 := by
  rw [List.getElem?_drop, Initialize_queue, List.getElem?_map]
  by_cases hlt : d + i < amr.GetNumberOfBlocks
  · rw [List.getElem?_range hlt, if_pos hlt]
    rfl
  · rw [List.getElem?_eq_none (by simp; omega), if_neg hlt]
    rfl

/-- C18. Closed form of the default streaming schedule: after `Initialize` on metadata with
`N` blocks, with `P` ranks and no `Update`, the queue before the `k`-th collective `Pop`
(`k = 0, 1, ...`) holds the identifiers `k * P, ..., N - 1`; the `k`-th `Pop` returns on
rank `i` the identifier `k * P + i` when `k * P + i < N` and `0` otherwise, and removes the
identifiers below `(k + 1) * P`; the queue is empty after `k` Pops exactly when
`k ≥ ceil(N / P)`; and every identifier `c < N` is the `k * P + i` of exactly one Pop `k`
and rank `i < P`. -/
theorem C18_default_schedule (internals0 : vtkInternals) (amr : vtkOverlappingAMRMetaData)
    (P i k : Nat) (hi : i < P) :
    (∃ sk st,
      PopTimes k ((atRank internals0 P i).Initialize amr) = some sk ∧
      sk.Internals.PriorityQueue.map (fun x => x.Identifier) =
        (List.range amr.GetNumberOfBlocks).drop (k * P) ∧
      (sk.IsEmpty = true ↔ (amr.GetNumberOfBlocks + P - 1) / P ≤ k) ∧
      sk.Pop = some (if k * P + i < amr.GetNumberOfBlocks then k * P + i else 0, st) ∧
      st.Internals.PriorityQueue.map (fun x => x.Identifier) =
        (List.range amr.GetNumberOfBlocks).drop ((k + 1) * P)) ∧
    (∀ c, c < amr.GetNumberOfBlocks → ∀ k1 i1, i1 < P →
      (k1 * P + i1 = c ↔ k1 = c / P ∧ i1 = c % P)) := by
  have hP : 0 < P := by omega
  have hs0 := Initialize_sorted (atRank internals0 P i) amr
  have hids := Initialize_ids (atRank internals0 P i) amr
  have hlen0 := Initialize_length (atRank internals0 P i) amr
  obtain ⟨sk, st, h1, h2, h3, h4⟩ := PopTimes_Pop_sorted k
    ((atRank internals0 P i).Initialize amr) _ P i rfl rfl rfl hi hs0
  rw [Initialize_drop_getD] at h3
  refine ⟨⟨sk, st, h1, ?_, ?_, h3, ?_⟩, ?_⟩
  · rw [h2, List.map_drop, hids]
  · rw [ceil_div_le_iff _ _ _ hP]
    show sk.Internals.PriorityQueue.isEmpty = true ↔ _
    rw [h2, List.isEmpty_iff_length_eq_zero, List.length_drop, hlen0]
    omega
  · rw [h4, List.map_drop, hids]
  · intro c _ k1 i1 hi1
    exact split_index_iff P c k1 i1 hi1

/-- C18, at the example metadata of three blocks with two ranks, for the Pop `1` on rank
`0`. -/
theorem C18_default_schedule_witness :
    0 < 2 ∧
    ((∃ sk st,
      PopTimes 1 ((atRank exampleEmptyInternals 2 0).Initialize exampleAMR) = some sk ∧
      sk.Internals.PriorityQueue.map (fun x => x.Identifier) =
        (List.range exampleAMR.GetNumberOfBlocks).drop (1 * 2) ∧
      (sk.IsEmpty = true ↔ (exampleAMR.GetNumberOfBlocks + 2 - 1) / 2 ≤ 1) ∧
      sk.Pop = some (if 1 * 2 + 0 < exampleAMR.GetNumberOfBlocks then 1 * 2 + 0 else 0, st) ∧
      st.Internals.PriorityQueue.map (fun x => x.Identifier) =
        (List.range exampleAMR.GetNumberOfBlocks).drop ((1 + 1) * 2)) ∧
    (∀ c, c < exampleAMR.GetNumberOfBlocks → ∀ k1 i1, i1 < 2 →
      (k1 * 2 + i1 = c ↔ k1 = c / 2 ∧ i1 = c % 2))) :=
  ⟨by decide, C18_default_schedule exampleEmptyInternals exampleAMR 2 0 1 (by decide)⟩

/-- C19. The default identifier is ambiguous with block `0`: with `N = 3` blocks and
`P = 2` ranks, the first `Pop` hands block `0` to rank `0` as a real block; after it the
queue of rank `1` is not empty and no longer holds block `0`, and the second `Pop` returns
the identifier `0` on rank `1`, as the fallback of a slot that got no block. -/
theorem C19_default_identifier_ambiguous :
    ((atRank exampleEmptyInternals 2 0).Initialize exampleAMR).Internals.PriorityQueue.map
        (fun x => x.Identifier) = [0, 1, 2] ∧
    (∃ st, ((atRank exampleEmptyInternals 2 0).Initialize exampleAMR).Pop = some (0, st) ∧
      st.Internals.PriorityQueue.map (fun x => x.Identifier) = [2]) ∧
    (∃ s1 st,
      PopTimes 1 ((atRank exampleEmptyInternals 2 1).Initialize exampleAMR) = some s1 ∧
      s1.IsEmpty = false ∧
      s1.Internals.PriorityQueue.map (fun x => x.Identifier) = [2] ∧
      s1.Pop = some (0, st) ∧ st.IsEmpty = true) := by
  have hs0 := Initialize_sorted (atRank exampleEmptyInternals 2 0) exampleAMR
  have hs1 := Initialize_sorted (atRank exampleEmptyInternals 2 1) exampleAMR
  have hids0 := Initialize_ids (atRank exampleEmptyInternals 2 0) exampleAMR
  have hids1 := Initialize_ids (atRank exampleEmptyInternals 2 1) exampleAMR
  obtain ⟨a0, a1, p1, p2, p3, p4⟩ := PopTimes_Pop_sorted 0
    ((atRank exampleEmptyInternals 2 0).Initialize exampleAMR) _ 2 0 rfl rfl rfl
    (by decide) hs0
  obtain ⟨b0, b1, q1, q2, q3, q4⟩ := PopTimes_Pop_sorted 1
    ((atRank exampleEmptyInternals 2 1).Initialize exampleAMR) _ 2 1 rfl rfl rfl
    (by decide) hs1
  rw [Initialize_drop_getD] at p3 q3
  simp only [PopTimes, Option.some.injEq] at p1
  subst p1
  have hb0 : b0.Internals.PriorityQueue.map (fun x => x.Identifier) = [2] := by
    rw [q2, List.map_drop, hids1]
    rfl
  refine ⟨by rw [hids0]; rfl, ⟨a1, p3, ?_⟩, ⟨b0, b1, q1, ?_, hb0, q3, ?_⟩⟩
  · rw [p4, List.map_drop, hids0]
    rfl
  · cases hq : b0.Internals.PriorityQueue with
    | nil => rw [hq] at hb0; simp at hb0
    | cons x xs => simp [IsEmpty, vtkStreamingPriorityQueue.empty, hq]
  · have hl : b1.Internals.PriorityQueue.length = 0 := by
      rw [q4, List.length_drop, Initialize_length]
      rfl
    simp [IsEmpty, vtkStreamingPriorityQueue.empty, List.eq_nil_of_length_eq_zero hl]

end vtkAMRStreamingPriorityQueue

/-! ## The render view -/

namespace vtkPVRenderView

/-- C10. Decision agreement: for every vector of per-rank reports and every threshold, the
value of `UseDistributedRenderingForRender` that `Update` computes is the same on every
rank: on each rank it is the decision for the reduced size and flags, in which the rank
does not occur. With sizes of 10, 200 and 5 megabytes and a threshold of 50 megabytes it
is `true` on all three ranks. -/
theorem C10_decision_agreement (self : vtkPVRenderView) (reports : List RankReport)
    (r1 r2 : Nat) :
    (self.Update reports r1).UseDistributedRenderingForRender =
      (self.Update reports r2).UseDistributedRenderingForRender ∧
    (self.Update reports r1).UseDistributedRenderingForRender =
      self.ShouldUseDistributedRendering
        ((reports.map (fun r => r.RequiresDistributedRendering)).any (fun b => b))
        ((reports.map (fun r => r.RequiresLocalOnlyRendering)).any (fun b => b))
        ((reports.map (fun r => r.GeometrySize)).sum) false ∧
    (∀ r, r < 3 →
      (exampleView.Update exampleReports r).UseDistributedRenderingForRender = true) := by
  refine ⟨rfl, rfl, ?_⟩
  intro r _
  simp only [Update, ShouldUseDistributedRendering, AllReduceSum, AllReduceLogicalOr,
    exampleView, exampleReports, List.map_cons, List.map_nil, List.any_cons, List.any_nil,
    List.sum_cons, List.sum_nil]
  norm_num

theorem any_id_of_mem (l : List Bool) (h : true ∈ l) : l.any (fun b => b) = true := by
  rw [List.any_eq_true]
  exact ⟨true, h, rfl⟩

/-- C11. Flag precedence: when the aggregate geometry size is below the remote-rendering
threshold and the report of at least one rank was raised by
`SetRequiresDistributedRendering` with value `true`, the decision that `Update` stores is
distributed rendering, on every rank. -/
theorem C11_flag_precedence (self : vtkPVRenderView) (reports : List RankReport)
    (i : Nat) (report : RankReport)
    (hsize : (reports.map (fun r => r.GeometrySize)).sum < self.RemoteRenderingThreshold)
    (hflag : reports[i]? = some (SetRequiresDistributedRendering report true))
    (rank : Nat) :
    (self.Update reports rank).UseDistributedRenderingForRender = true ∧
    self.ShouldUseDistributedRendering false false
      ((reports.map (fun r => r.GeometrySize)).sum) false = false := by
  have hmem : SetRequiresDistributedRendering report true ∈ reports := by
    obtain ⟨hi, he⟩ := List.getElem?_eq_some_iff.1 hflag
    rw [← he]
    exact List.getElem_mem hi
  have hany : (reports.map (fun r => r.RequiresDistributedRendering)).any (fun b => b) =
      true := by
    apply any_id_of_mem
    exact List.mem_map.2 ⟨_, hmem, rfl⟩
  refine ⟨?_, ?_⟩
  · simp only [Update, AllReduceLogicalOr, hany, ShouldUseDistributedRendering, if_true]
  · simp only [ShouldUseDistributedRendering, Bool.false_eq_true, if_false,
      decide_eq_false_iff_not, not_lt]
    exact le_of_lt hsize

/-- C11, at three ranks with sizes of 10, 20 and 5 megabytes and a threshold of 50
megabytes, rank `1` having raised the requirement; the decision is read on rank `2`. -/
theorem C11_flag_precedence_witness :
    ((exampleFlagReports.map (fun r => r.GeometrySize)).sum <
        exampleView.RemoteRenderingThreshold ∧
      exampleFlagReports[1]? = some (SetRequiresDistributedRendering
        { GeometrySize := 20, RequiresDistributedRendering := false,
          RequiresLocalOnlyRendering := false } true)) ∧
    ((exampleView.Update exampleFlagReports 2).UseDistributedRenderingForRender = true ∧
      exampleView.ShouldUseDistributedRendering false false
        ((exampleFlagReports.map (fun r => r.GeometrySize)).sum) false = false) :=
  ⟨⟨by simp [exampleFlagReports, exampleView, SetRequiresDistributedRendering]; norm_num,
      rfl⟩,
    C11_flag_precedence exampleView exampleFlagReports 1
      { GeometrySize := 20, RequiresDistributedRendering := false,
        RequiresLocalOnlyRendering := false }
      (by simp [exampleFlagReports, exampleView, SetRequiresDistributedRendering]; norm_num)
      rfl 2⟩

/-- C12. The `OrderedCompositingConfiguration` flags combine with bit-wise OR without loss:
the three flags are the single bits `0`, `1` and `6`, pairwise disjoint; for every subset of
the flags, the OR of the subset contains exactly the flags of the subset; and the default
configuration `0` contains no flag. -/
theorem C12_flags_combine_without_loss :
    (USE_BOUNDS_FOR_REDISTRIBUTION = 2 ^ 0 ∧ DATA_IS_REDISTRIBUTABLE = 2 ^ 1 ∧
      USE_DATA_FOR_LOAD_BALANCING = 2 ^ 6) ∧
    (USE_BOUNDS_FOR_REDISTRIBUTION &&& DATA_IS_REDISTRIBUTABLE = 0 ∧
      USE_BOUNDS_FOR_REDISTRIBUTION &&& USE_DATA_FOR_LOAD_BALANCING = 0 ∧
      DATA_IS_REDISTRIBUTABLE &&& USE_DATA_FOR_LOAD_BALANCING = 0) ∧
    (∀ useBounds redistributable loadBalancing : Bool,
      hasFlag (combineFlags useBounds redistributable loadBalancing)
          USE_BOUNDS_FOR_REDISTRIBUTION = useBounds ∧
        hasFlag (combineFlags useBounds redistributable loadBalancing)
          DATA_IS_REDISTRIBUTABLE = redistributable ∧
        hasFlag (combineFlags useBounds redistributable loadBalancing)
          USE_DATA_FOR_LOAD_BALANCING = loadBalancing) ∧
    (combineFlags false false false = 0 ∧
      hasFlag 0 USE_BOUNDS_FOR_REDISTRIBUTION = false ∧
      hasFlag 0 DATA_IS_REDISTRIBUTABLE = false ∧
      hasFlag 0 USE_DATA_FOR_LOAD_BALANCING = false) := by
  refine ⟨by decide, by decide, ?_, by decide⟩
  intro useBounds redistributable loadBalancing
  cases useBounds <;> cases redistributable <;> cases loadBalancing <;> decide

end vtkPVRenderView

namespace vtkPVRenderViewSettings

theorem vtkSetClampMacro_int (lo hi v : Int) (h : lo ≤ hi) :
    vtkSetClampMacro lo hi v = min (max v lo) hi ∧
      lo ≤ vtkSetClampMacro lo hi v ∧ vtkSetClampMacro lo hi v ≤ hi := by
  unfold vtkSetClampMacro
  split
  · refine ⟨?_, le_refl _, h⟩
    rw [max_eq_right (by omega), min_eq_left h]
  · split
    · refine ⟨?_, h, le_refl _⟩
      rw [max_eq_left (by omega), min_eq_right (by omega)]
    · refine ⟨?_, by omega, by omega⟩
      rw [max_eq_left (by omega), min_eq_left (by omega)]

theorem vtkSetClampMacro_rat (lo hi v : ℚ) (h : lo ≤ hi) :
    vtkSetClampMacro lo hi v = min (max v lo) hi ∧
      lo ≤ vtkSetClampMacro lo hi v ∧ vtkSetClampMacro lo hi v ≤ hi := by
  unfold vtkSetClampMacro
  split
  · rename_i h1
    refine ⟨?_, le_refl _, h⟩
    rw [max_eq_right (le_of_lt h1), min_eq_left h]
  · rename_i h1
    have h1' : lo ≤ v := not_lt.1 h1
    split
    · rename_i h2
      refine ⟨?_, h, le_refl _⟩
      rw [max_eq_left h1', min_eq_right (le_of_lt h2)]
    · rename_i h2
      have h2' : v ≤ hi := not_lt.1 h2
      refine ⟨?_, h1', h2'⟩
      rw [max_eq_left h1', min_eq_left h2']

/-- C14. Clamped view settings stay in range: after
`SetStillRenderImageReductionFactor(v)` (resp. `SetInteractiveRenderImageReductionFactor(v)`)
the getter returns `min(max(v, 1), 20)`, which lies in `[1, 20]`; after
`SetLODResolution(x)` the getter returns `x` clamped to `[0, 1]`. Each setter leaves the
other two settings as they were. -/
theorem C14_clamped_settings (self : vtkPVRenderViewSettings) (v : Int) (x : ℚ) :
    ((self.SetStillRenderImageReductionFactor v).GetStillRenderImageReductionFactor =
        min (max v 1) 20 ∧
      1 ≤ (self.SetStillRenderImageReductionFactor v).GetStillRenderImageReductionFactor ∧
      (self.SetStillRenderImageReductionFactor v).GetStillRenderImageReductionFactor ≤ 20) ∧
    ((self.SetInteractiveRenderImageReductionFactor
          v).GetInteractiveRenderImageReductionFactor = min (max v 1) 20 ∧
      1 ≤ (self.SetInteractiveRenderImageReductionFactor
          v).GetInteractiveRenderImageReductionFactor ∧
      (self.SetInteractiveRenderImageReductionFactor
          v).GetInteractiveRenderImageReductionFactor ≤ 20) ∧
    ((self.SetLODResolution x).GetLODResolution = min (max x 0) 1 ∧
      0 ≤ (self.SetLODResolution x).GetLODResolution ∧
      (self.SetLODResolution x).GetLODResolution ≤ 1) ∧
    ((self.SetStillRenderImageReductionFactor v).GetInteractiveRenderImageReductionFactor =
        self.GetInteractiveRenderImageReductionFactor ∧
      (self.SetStillRenderImageReductionFactor v).GetLODResolution = self.GetLODResolution ∧
      (self.SetInteractiveRenderImageReductionFactor v).GetStillRenderImageReductionFactor =
        self.GetStillRenderImageReductionFactor ∧
      (self.SetLODResolution x).GetStillRenderImageReductionFactor =
        self.GetStillRenderImageReductionFactor) :=
  ⟨vtkSetClampMacro_int 1 20 v (by decide), vtkSetClampMacro_int 1 20 v (by decide),
    vtkSetClampMacro_rat 0 1 x (by norm_num), ⟨rfl, rfl, rfl, rfl⟩⟩

end vtkPVRenderViewSettings

namespace vtkImageVolumeRepresentation

/-- C13. `vtkImageVolumeRepresentation` never declares both redistribution policies: in a
`REQUEST_UPDATE` pass that the superclass accepts, it passes exactly one configuration to
`SetOrderedCompositingConfiguration`, with the `USE_BOUNDS_FOR_REDISTRIBUTION` bit set and
the `DATA_IS_REDISTRIBUTABLE` bit clear, and in the `REQUEST_UPDATE` and the
`REQUEST_UPDATE_LOD` pass it requires distributed rendering with value `true` (for the
full-resolution and the LOD render respectively) and never with value `false`. -/
theorem C13_single_redistribution_policy (self : vtkImageVolumeRepresentation)
    (superclass_result : Int) (h : superclass_result ≠ 0) :
    (self.ProcessViewRequest superclass_result RequestType.REQUEST_UPDATE).1 = 1 ∧
    (∃ config, (self.ProcessViewRequest superclass_result RequestType.REQUEST_UPDATE).2.filter
        (fun c => match c with
          | ViewCall.SetOrderedCompositingConfiguration _ => true
          | _ => false) = [ViewCall.SetOrderedCompositingConfiguration config] ∧
      vtkPVRenderView.hasFlag config vtkPVRenderView.USE_BOUNDS_FOR_REDISTRIBUTION = true ∧
      vtkPVRenderView.hasFlag config vtkPVRenderView.DATA_IS_REDISTRIBUTABLE = false) ∧
    (self.ProcessViewRequest superclass_result RequestType.REQUEST_UPDATE).2.filter
        (fun c => match c with
          | ViewCall.SetRequiresDistributedRendering _ _ => true
          | _ => false) = [ViewCall.SetRequiresDistributedRendering true false] ∧
    (self.ProcessViewRequest superclass_result RequestType.REQUEST_UPDATE_LOD) =
      (1, [ViewCall.SetRequiresDistributedRendering true true]) := by
  refine ⟨?_, ⟨vtkPVRenderView.USE_BOUNDS_FOR_REDISTRIBUTION, ?_, by decide, by decide⟩,
    ?_, ?_⟩ <;>
  simp [ProcessViewRequest, h, vtkPVRenderView.SetRequiresDistributedRenderingLOD]

/-- C13, at the example representation with a superclass that returns `1`. -/
theorem C13_single_redistribution_policy_witness :
    (1 : Int) ≠ 0 ∧
    ((exampleVolume.ProcessViewRequest 1 RequestType.REQUEST_UPDATE).1 = 1 ∧
    (∃ config, (exampleVolume.ProcessViewRequest 1 RequestType.REQUEST_UPDATE).2.filter
        (fun c => match c with
          | ViewCall.SetOrderedCompositingConfiguration _ => true
          | _ => false) = [ViewCall.SetOrderedCompositingConfiguration config] ∧
      vtkPVRenderView.hasFlag config vtkPVRenderView.USE_BOUNDS_FOR_REDISTRIBUTION = true ∧
      vtkPVRenderView.hasFlag config vtkPVRenderView.DATA_IS_REDISTRIBUTABLE = false) ∧
    (exampleVolume.ProcessViewRequest 1 RequestType.REQUEST_UPDATE).2.filter
        (fun c => match c with
          | ViewCall.SetRequiresDistributedRendering _ _ => true
          | _ => false) = [ViewCall.SetRequiresDistributedRendering true false] ∧
    (exampleVolume.ProcessViewRequest 1 RequestType.REQUEST_UPDATE_LOD) =
      (1, [ViewCall.SetRequiresDistributedRendering true true])) :=
  ⟨by decide, C13_single_redistribution_policy exampleVolume 1 (by decide)⟩

end vtkImageVolumeRepresentation

/-! ## The axis-aligned cutter -/

namespace vtkAxisAlignedCutter

theorem leavesAreHTG_iff : ∀ leaves : List LeafObject,
    leavesAreHTG leaves = true ↔ ∀ l ∈ leaves, l = LeafObject.HyperTreeGrid
  | [] => by simp [leavesAreHTG]
  | LeafObject.HyperTreeGrid :: rest => by
    simp [leavesAreHTG, leavesAreHTG_iff rest]
  | LeafObject.Other :: rest => by
    simp [leavesAreHTG]

/-- C15. Input validation of `RequestDataObject`: it returns `1` with a
`vtkOverlappingAMR` output when the input is a `vtkOverlappingAMR`; it returns `0` (output
untouched) when the input is a composite tree with a leaf that is not a
`vtkHyperTreeGrid`; it returns `1` with a `vtkPartitionedDataSetCollection` output when
the input is a `vtkHyperTreeGrid` or a composite tree all of whose leaves are
`vtkHyperTreeGrid`s; it returns `0` (output untouched) for every other input. When it
returns `1`, an output of the right class that already exists is kept, and otherwise the
output is the freshly created object. -/
theorem C15_RequestDataObject_validation (input : InputObject) (output : Option OutputObject)
    (fresh : Nat) :
    (input = InputObject.OverlappingAMR →
      (RequestDataObject input output fresh).1 = 1 ∧
      ∃ o, (RequestDataObject input output fresh).2 = some o ∧
        o.cls = OutputClass.OverlappingAMR ∧
        ((∃ old, output = some old ∧ old.cls = OutputClass.OverlappingAMR ∧ o = old) ∨
          ((∀ old, output = some old → old.cls ≠ OutputClass.OverlappingAMR) ∧
            o.address = fresh))) ∧
    (∀ leaves, input = InputObject.DataObjectTree leaves →
      (∃ l ∈ leaves, l ≠ LeafObject.HyperTreeGrid) →
      RequestDataObject input output fresh = (0, output)) ∧
    ((input = InputObject.HyperTreeGrid ∨
        ∃ leaves, input = InputObject.DataObjectTree leaves ∧
          ∀ l ∈ leaves, l = LeafObject.HyperTreeGrid) →
      (RequestDataObject input output fresh).1 = 1 ∧
      ∃ o, (RequestDataObject input output fresh).2 = some o ∧
        o.cls = OutputClass.PartitionedDataSetCollection ∧
        ((∃ old, output = some old ∧
            old.cls = OutputClass.PartitionedDataSetCollection ∧ o = old) ∨
          ((∀ old, output = some old →
              old.cls ≠ OutputClass.PartitionedDataSetCollection) ∧
            o.address = fresh))) ∧
    (input = InputObject.Other → RequestDataObject input output fresh = (0, output)) := by
  refine ⟨?_, ?_, ?_, ?_⟩
  · intro hin
    subst hin
    cases output with
    | none => simp [RequestDataObject]
    | some old =>
      by_cases hc : old.cls = OutputClass.OverlappingAMR
      · simp [RequestDataObject, hc]
      · simp [RequestDataObject, hc]
  · intro leaves hin hbad
    subst hin
    have hl : leavesAreHTG leaves = false := by
      cases h : leavesAreHTG leaves with
      | false => rfl
      | true =>
        obtain ⟨l, hlm, hne⟩ := hbad
        exact absurd ((leavesAreHTG_iff leaves).1 h l hlm) hne
    simp [RequestDataObject, hl]
  · intro hin
    have key : ∀ inp : InputObject,
        (inp = InputObject.HyperTreeGrid ∨
          ∃ leaves, inp = InputObject.DataObjectTree leaves ∧ leavesAreHTG leaves = true) →
        RequestDataObject inp output fresh =
          (1, if (match output with
                  | some o => decide (o.cls = OutputClass.PartitionedDataSetCollection)
                  | none => false) = true
              then output
              else some { cls := OutputClass.PartitionedDataSetCollection,
                          address := fresh }) := by
      intro inp hinp
      rcases hinp with rfl | ⟨leaves, rfl, hl⟩
      · cases output with
        | none => simp [RequestDataObject]
        | some old =>
          by_cases hc : old.cls = OutputClass.PartitionedDataSetCollection <;>
            simp [RequestDataObject, hc]
      · cases output with
        | none => simp [RequestDataObject, hl]
        | some old =>
          by_cases hc : old.cls = OutputClass.PartitionedDataSetCollection <;>
            simp [RequestDataObject, hl, hc]
    have hin2 : input = InputObject.HyperTreeGrid ∨
        ∃ leaves, input = InputObject.DataObjectTree leaves ∧
          leavesAreHTG leaves = true := by
      rcases hin with h | ⟨leaves, h, hall⟩
      · exact Or.inl h
      · exact Or.inr ⟨leaves, h, (leavesAreHTG_iff leaves).2 hall⟩
    rw [key input hin2]
    cases output with
    | none => simp
    | some old =>
      by_cases hc : old.cls = OutputClass.PartitionedDataSetCollection <;> simp [hc]
  · intro hin
    subst hin
    simp [RequestDataObject]

/-! ### Slices of a hyper tree grid -/

theorem updateSlot_append (f : CollectionSlot → CollectionSlot) :
    ∀ (T r : vtkPartitionedDataSetCollection),
      vtkPartitionedDataSetCollection.updateSlot f T.length (T ++ r) =
        T ++ vtkPartitionedDataSetCollection.updateSlot f 0 r
  | [], r => by simp
  | e :: es, r => by
    have ih := updateSlot_append f es r
    show vtkPartitionedDataSetCollection.updateSlot f (es.length + 1) (e :: (es ++ r)) =
      e :: (es ++ vtkPartitionedDataSetCollection.updateSlot f 0 r)
    rw [vtkPartitionedDataSetCollection.updateSlot, ih]

/-- Storing a dataset at the index `nbInserted` and naming that index replaces the slot at
the index, or appends one slot when the index is the number of slots. -/
theorem set_slot (T r : vtkPartitionedDataSetCollection) (nbInserted : Nat)
    (hT : T.length = nbInserted) (pds : vtkPartitionedDataSet) (name : String) :
    vtkPartitionedDataSetCollection.SetName
      (vtkPartitionedDataSetCollection.SetPartitionedDataSet (T ++ r) nbInserted pds)
      nbInserted name =
      (T ++ [{ DataSet := pds, Name := some name }]) ++ r.drop 1 := by
  subst hT
  unfold vtkPartitionedDataSetCollection.SetName
    vtkPartitionedDataSetCollection.SetPartitionedDataSet
  rw [updateSlot_append, updateSlot_append]
  cases r <;>
    simp [vtkPartitionedDataSetCollection.updateSlot, CollectionSlot.empty]

theorem any_contributions (cut : Nat → ℚ → vtkHyperTreeGrid) (numRanks : Nat) (offset : ℚ) :
    ((List.range numRanks).map (fun r => intersects cut r offset)).any
        (fun v => decide (v ≠ 0)) =
      (List.range numRanks).any (fun r => decide ((cut r offset).GetNumberOfCells ≠ 0)) := by
  induction List.range numRanks with
  | nil => rfl
  | cons r rs ih =>
    rw [List.map_cons, List.any_cons, List.any_cons, ih]
    congr 1
    by_cases h : (cut r offset).GetNumberOfCells = 0 <;> simp [h, intersects]

/-- The loop of `ProcessHTG`, when the communication works and `nbInserted` slots `T` have
been written: it writes the expected slots after `T`, over the slots that were there. -/
theorem ProcessHTGLoop_eq (cut : Nat → ℚ → vtkHyperTreeGrid)
    (Controller : vtkMultiProcessController) :
    ∀ (offsets : List ℚ) (nbInserted : Nat) (T r : vtkPartitionedDataSetCollection),
      T.length = nbInserted →
      ProcessHTGLoop cut true Controller offsets nbInserted (T ++ r) =
        (true, T ++ expectedSlices cut Controller.GetLocalProcessId nbInserted
            (intersectingOffsets cut Controller.GetNumberOfProcesses offsets) ++
          r.drop (intersectingOffsets cut Controller.GetNumberOfProcesses offsets).length)
  | [], nb, T, r, _ => by
    simp [ProcessHTGLoop, intersectingOffsets, expectedSlices]
  | offset :: rest, nb, T, r, hT => by
    by_cases hany : (List.range Controller.GetNumberOfProcesses).any
        (fun r => decide ((cut r offset).GetNumberOfCells ≠ 0)) = true
    · have hf : intersectingOffsets cut Controller.GetNumberOfProcesses (offset :: rest) =
          offset :: intersectingOffsets cut Controller.GetNumberOfProcesses rest := by
        simp only [intersectingOffsets, List.filter_cons, hany, if_true]
      have ih := ProcessHTGLoop_eq cut Controller rest (nb + 1)
        (T ++ [{ DataSet := { Partitions := [some (cut Controller.GetLocalProcessId offset)] },
                 Name := some ("Slice" ++ toString nb) }]) (r.drop 1)
        (by simp [hT])
      have hstep : ProcessHTGLoop cut true Controller (offset :: rest) nb (T ++ r) =
          ProcessHTGLoop cut true Controller rest (nb + 1)
            ((T ++ [{ DataSet :=
                        { Partitions := [some (cut Controller.GetLocalProcessId offset)] },
                      Name := some ("Slice" ++ toString nb) }]) ++ r.drop 1) := by
        simp only [ProcessHTGLoop, vtkMultiProcessController.AllReduce, any_contributions,
          hany, if_true, one_ne_zero, if_false, set_slot T r nb hT]
      rw [hstep, ih, hf]
      simp only [expectedSlices, List.length_cons, List.drop_drop, List.append_assoc,
        List.cons_append, List.nil_append]
      rw [Nat.add_comm 1]
    · have hany2 : (List.range Controller.GetNumberOfProcesses).any
          (fun r => decide ((cut r offset).GetNumberOfCells ≠ 0)) = false := by
        simpa using hany
      have hf : intersectingOffsets cut Controller.GetNumberOfProcesses (offset :: rest) =
          intersectingOffsets cut Controller.GetNumberOfProcesses rest := by
        simp only [intersectingOffsets, List.filter_cons, hany2, Bool.false_eq_true, if_false]
      have ih := ProcessHTGLoop_eq cut Controller rest nb T r hT
      simp only [ProcessHTGLoop, vtkMultiProcessController.AllReduce, any_contributions,
        hany2, if_true, Bool.false_eq_true, if_false, ih, hf]

theorem expectedSlices_length (cut : Nat → ℚ → vtkHyperTreeGrid) (rank : Nat) :
    ∀ (j : Nat) (offsets : List ℚ), (expectedSlices cut rank j offsets).length = offsets.length
  | _, [] => rfl
  | j, _ :: rest => by
    simp [expectedSlices, expectedSlices_length cut rank (j + 1) rest]

theorem expectedSlices_getElem? (cut : Nat → ℚ → vtkHyperTreeGrid) (rank : Nat) :
    ∀ (j : Nat) (offsets : List ℚ) (n : Nat) (hn : n < offsets.length),
      (expectedSlices cut rank j offsets)[n]? =
        some { DataSet := { Partitions := [some (cut rank (offsets.get ⟨n, hn⟩))] },
               Name := some ("Slice" ++ toString (j + n)) }
  | _, [], _, hn => by simp at hn
  | j, offset :: rest, 0, _ => by simp [expectedSlices]
  | j, offset :: rest, n + 1, hn => by
    have h := expectedSlices_getElem? cut rank (j + 1) rest n (by simpa using hn)
    simp only [expectedSlices, List.getElem?_cons_succ, h, List.get_eq_getElem,
      List.getElem_cons_succ]
    rw [show j + 1 + n = j + (n + 1) by omega]

/-- C20. Slice bookkeeping in `ProcessHTG`, the `AllReduce` being the logical OR of the
per-rank "cut is non-empty" values: on an output collection that is empty on entry, the
call returns `true` and the output holds exactly one partitioned dataset per offset whose
cut is non-empty on at least one rank, at the consecutive indices `0..k-1` in the order of
the offsets, the one at index `j` holding the rank's own cut and named `Slice` followed by
`j`; an offset whose cut is empty on every rank adds nothing; `k` is the same on every
rank; and on an output collection that is not empty on entry the same slots are written
over its first `k` slots, the other slots staying. -/
theorem C20_ProcessHTG_slice_bookkeeping (cut : Nat → ℚ → vtkHyperTreeGrid)
    (Controller : vtkMultiProcessController) (OffsetValues : List ℚ) :
    (ProcessHTG cut true Controller OffsetValues []).1 = true ∧
    (ProcessHTG cut true Controller OffsetValues []).2.length =
      (intersectingOffsets cut Controller.GetNumberOfProcesses OffsetValues).length ∧
    (∀ (j : Nat)
        (hj : j < (intersectingOffsets cut Controller.GetNumberOfProcesses
          OffsetValues).length),
      (ProcessHTG cut true Controller OffsetValues []).2[j]? =
        some { DataSet := { Partitions := [some (cut Controller.GetLocalProcessId
                  ((intersectingOffsets cut Controller.GetNumberOfProcesses
                    OffsetValues).get ⟨j, hj⟩))] },
               Name := some ("Slice" ++ toString j) }) ∧
    (List.Sublist (intersectingOffsets cut Controller.GetNumberOfProcesses OffsetValues)
        OffsetValues ∧
      ∀ offset, offset ∈ intersectingOffsets cut Controller.GetNumberOfProcesses
          OffsetValues ↔
        offset ∈ OffsetValues ∧
          ∃ r, r < Controller.GetNumberOfProcesses ∧
            (cut r offset).GetNumberOfCells ≠ 0) ∧
    (∀ otherRank : Nat,
      (ProcessHTG cut true
        { GetNumberOfProcesses := Controller.GetNumberOfProcesses,
          GetLocalProcessId := otherRank } OffsetValues []).2.length =
        (ProcessHTG cut true Controller OffsetValues []).2.length) ∧
    (∀ outputSlices : vtkPartitionedDataSetCollection,
      ProcessHTG cut true Controller OffsetValues outputSlices =
        (true, (ProcessHTG cut true Controller OffsetValues []).2 ++
          outputSlices.drop
            (intersectingOffsets cut Controller.GetNumberOfProcesses OffsetValues).length)) := by
  have key : ∀ (C : vtkMultiProcessController) (out : vtkPartitionedDataSetCollection),
      ProcessHTG cut true C OffsetValues out =
        (true, expectedSlices cut C.GetLocalProcessId 0
            (intersectingOffsets cut C.GetNumberOfProcesses OffsetValues) ++
          out.drop (intersectingOffsets cut C.GetNumberOfProcesses OffsetValues).length) := by
    intro C out
    have h := ProcessHTGLoop_eq cut C OffsetValues 0 [] out rfl
    simpa [ProcessHTG] using h
  have key0 : (ProcessHTG cut true Controller OffsetValues []).2 =
      expectedSlices cut Controller.GetLocalProcessId 0
        (intersectingOffsets cut Controller.GetNumberOfProcesses OffsetValues) := by
    rw [key]
    simp
  refine ⟨by rw [key], ?_, ?_, ⟨?_, ?_⟩, ?_, ?_⟩
  · rw [key0, expectedSlices_length]
  · intro j hj
    rw [key0, expectedSlices_getElem? cut _ 0 _ j hj, Nat.zero_add]
  · exact List.filter_sublist _
  · intro offset
    simp only [intersectingOffsets, List.mem_filter, List.any_eq_true, List.mem_range,
      decide_eq_true_eq]
  · intro otherRank
    rw [key, key]
    simp [expectedSlices_length]
  · intro outputSlices
    rw [key0, key]

/-! ### The axis of the plane normal -/

/-- Both methods choose the same axis, for every normal. -/
theorem planeNormalAxis_same (normal : Fin 3 → ℚ) :
    (CutAMRWithAAPlane_planeNormalAxis normal).axisIndex =
      CutHTGWithAAPlane_planeNormalAxis normal := by
  unfold CutAMRWithAAPlane_planeNormalAxis CutHTGWithAAPlane_planeNormalAxis
  by_cases h1 : normal 1 > normal 0 <;> by_cases h2 : normal 2 > normal 0 <;>
    simp [h1, h2, vtkAMRSliceFilter.axisIndex]

/-- C21, as stated, fails at the normal `(0, -1, 0)`: it is axis-aligned along the y axis
(index `1`), and both `CutHTGWithAAPlane` and `CutAMRWithAAPlane` choose the x axis
(index `0`). -/
theorem C21_negative_normal_counterexample :
    IsAxisAligned exampleNegativeYNormal 1 ∧
    CutHTGWithAAPlane_planeNormalAxis exampleNegativeYNormal = 0 ∧
    (CutAMRWithAAPlane_planeNormalAxis exampleNegativeYNormal).axisIndex = 0 ∧
    CutHTGWithAAPlane_planeNormalAxis exampleNegativeYNormal ≠ ((1 : Fin 3).val : Int) := by
  refine ⟨⟨by decide, ?_⟩, by decide, by decide, by decide⟩
  intro j hj
  fin_cases j
  · decide
  · exact absurd rfl hj
  · decide

/-- C21, amended. Normal-axis selection of `vtkAxisAlignedCutter`: for every axis-aligned
plane normal whose non-zero component is positive, the `planeNormalAxis` chosen by
`CutHTGWithAAPlane` and by `CutAMRWithAAPlane` is the index of the non-zero component
(`0` for x, `1` for y, `2` for z); and both methods choose the same axis for the same
normal, whatever the normal. -/
theorem C21_normal_axis_selection (normal : Fin 3 → ℚ) (axis : Fin 3)
    (haligned : IsAxisAligned normal axis) (hpos : 0 < normal axis) :
    CutHTGWithAAPlane_planeNormalAxis normal = (axis.val : Int) ∧
    (CutAMRWithAAPlane_planeNormalAxis normal).axisIndex = (axis.val : Int) ∧
    (∀ n : Fin 3 → ℚ, (CutAMRWithAAPlane_planeNormalAxis n).axisIndex =
      CutHTGWithAAPlane_planeNormalAxis n) := by
  have hHTG : CutHTGWithAAPlane_planeNormalAxis normal = (axis.val : Int) := by
    obtain ⟨_, hz⟩ := haligned
    unfold CutHTGWithAAPlane_planeNormalAxis
    fin_cases axis
    · have h1 : normal 1 = 0 := hz 1 (by decide)
      have h2 : normal 2 = 0 := hz 2 (by decide)
      have hp : (0 : ℚ) < normal 0 := hpos
      have hn : ¬ (0 : ℚ) > normal 0 := not_lt.2 (le_of_lt hp)
      simp [h1, h2, hn]
    · have h0 : normal 0 = 0 := hz 0 (by decide)
      have h2 : normal 2 = 0 := hz 2 (by decide)
      have hp : (0 : ℚ) < normal 1 := hpos
      simp [h0, h2, hp]
    · have h0 : normal 0 = 0 := hz 0 (by decide)
      have h1 : normal 1 = 0 := hz 1 (by decide)
      have hp : (0 : ℚ) < normal 2 := hpos
      simp [h0, h1, hp]
  exact ⟨hHTG, (planeNormalAxis_same normal).trans hHTG, planeNormalAxis_same⟩

/-- C21, amended, at the normal `(0, 0, 1)`. -/
theorem C21_normal_axis_selection_witness :
    (IsAxisAligned exampleZNormal 2 ∧ 0 < exampleZNormal 2) ∧
    (CutHTGWithAAPlane_planeNormalAxis exampleZNormal = ((2 : Fin 3).val : Int) ∧
    (CutAMRWithAAPlane_planeNormalAxis exampleZNormal).axisIndex = ((2 : Fin 3).val : Int) ∧
    (∀ n : Fin 3 → ℚ, (CutAMRWithAAPlane_planeNormalAxis n).axisIndex =
      CutHTGWithAAPlane_planeNormalAxis n)) :=
  ⟨⟨⟨by decide, by decide⟩, by decide⟩,
    C21_normal_axis_selection exampleZNormal 2 ⟨by decide, by decide⟩ (by decide)⟩

end vtkAxisAlignedCutter

/-! ## The sequence animation player -/

namespace vtkSequenceAnimationPlayer

/-- Truncation of a non-negative integer plus one half gives the integer back. -/
theorem static_cast_int_add_half (k : Int) (hk : 0 ≤ k) :
    static_cast_int ((k : ℚ) + 1 / 2) = k := by
  have hk' : (0 : ℚ) ≤ (k : ℚ) := by exact_mod_cast hk
  have hpos : (0 : ℚ) ≤ (k : ℚ) + 1 / 2 := by linarith
  unfold static_cast_int
  rw [if_pos hpos, Int.floor_eq_iff]
  constructor <;> linarith

theorem GetTimeFromTimestep_eq (self : vtkSequenceAnimationPlayer)
    (hN : 2 ≤ self.NumberOfFrames) (start endtime : ℚ) (timestep : Int) :
    self.GetTimeFromTimestep start endtime timestep =
      start + (timestep : ℚ) * ((endtime - start) / ((self.NumberOfFrames : ℚ) - 1)) := by
  unfold GetTimeFromTimestep
  rw [max_eq_left (by omega)]
  push_cast
  rfl

/-- C22. Frame/time round trip of `vtkSequenceAnimationPlayer`, in exact arithmetic: for
`NumberOfFrames = N ≥ 2`, `start < end` and every integer `k` with `0 ≤ k ≤ N - 1`,
`GetTimestep(start, end, GetTimeFromTimestep(start, end, k)) = k`; moreover
`GetTimeFromTimestep(start, end, 0) = start` and
`GetTimeFromTimestep(start, end, N - 1) = end`. -/
theorem C22_frame_time_round_trip (self : vtkSequenceAnimationPlayer)
    (hN : 2 ≤ self.NumberOfFrames) (start endtime : ℚ) (hlt : start < endtime)
    (k : Int) (hk0 : 0 ≤ k) (_hk : k ≤ self.NumberOfFrames - 1) :
    self.GetTimestep start endtime (self.GetTimeFromTimestep start endtime k) = k ∧
    self.GetTimeFromTimestep start endtime 0 = start ∧
    self.GetTimeFromTimestep start endtime (self.NumberOfFrames - 1) = endtime := by
  have hN' : (2 : ℚ) ≤ (self.NumberOfFrames : ℚ) := by exact_mod_cast hN
  have hd : (self.NumberOfFrames : ℚ) - 1 ≠ 0 := by
    intro h
    linarith
  have he : endtime - start ≠ 0 := by
    intro h
    linarith
  refine ⟨?_, ?_, ?_⟩
  · have hne : start ≠ endtime := ne_of_lt hlt
    rw [GetTimeFromTimestep_eq self hN]
    unfold GetTimestep
    rw [if_neg hne]
    have harg : (start + (k : ℚ) * ((endtime - start) / ((self.NumberOfFrames : ℚ) - 1)) -
        start) * ((self.NumberOfFrames - 1 : Int) : ℚ) / (endtime - start) + 1 / 2 =
        (k : ℚ) + 1 / 2 := by
      push_cast
      field_simp
      ring
    rw [harg]
    exact static_cast_int_add_half k hk0
  · rw [GetTimeFromTimestep_eq self hN]
    simp
  · rw [GetTimeFromTimestep_eq self hN]
    push_cast
    field_simp

/-- C22, at a player of five frames, from time `0` to time `2`, for the frame `3`. -/
theorem C22_frame_time_round_trip_witness :
    (2 ≤ examplePlayer.NumberOfFrames ∧ (0 : ℚ) < 2 ∧ (0 : Int) ≤ 3 ∧
      (3 : Int) ≤ examplePlayer.NumberOfFrames - 1) ∧
    (examplePlayer.GetTimestep 0 2 (examplePlayer.GetTimeFromTimestep 0 2 3) = 3 ∧
    examplePlayer.GetTimeFromTimestep 0 2 0 = 0 ∧
    examplePlayer.GetTimeFromTimestep 0 2 (examplePlayer.NumberOfFrames - 1) = 2) :=
  ⟨⟨by decide, by norm_num, by decide, by decide⟩,
    C22_frame_time_round_trip examplePlayer (by decide) 0 2 (by norm_num) 3 (by decide)
      (by decide)⟩

end vtkSequenceAnimationPlayer

end ParaView
